import Mathlib

/-!
# ZonePropertyUserViewFactorsBySurfaceName

A shallow embedding of `openstudiocore/src/model/ZonePropertyUserViewFactorsBySurfaceName.cpp`:
the `ViewFactor` value wrapper and the relation object that stores view factors as
extensible groups of a workspace record.

The generic workspace (handles, pointer fields, extensible groups) lives outside the
translated file; the few primitives the translated functions call are modelled below and
are marked as such.
-/

namespace OpenStudio

/-! ## Values -/

/-- Modelled from the spec: a handle is the opaque, stable identifier the entity store
gives every object (`Handle`, a UUID, in the code). -/
abbrev Handle := Nat

/-- Modelled from the spec: the type tag of a record (`IddObjectType`, declared in the
generated header `IddEnums.hxx`). The tags the translated code mentions are named; every
other tag of the enumeration is `Other value`. -/
inductive IddObjectType where
  | OS_Surface
  | OS_SubSurface
  | OS_InternalMass
  | OS_Space
  | OS_ThermalZone
  | OS_ZoneProperty_UserViewFactors_BySurfaceName
  | Other (value : Nat)
  deriving DecidableEq, Repr

/-- A C++ `double`, as far as comparison is concerned: a finite value is the rational it
denotes (both zeros are `finite 0`), and there are the two infinities and NaN. -/
inductive Double where
  | finite (q : ℚ)
  | posInf
  | negInf
  | nan
  deriving DecidableEq

namespace Double

/-- The integer constant `n` converted to `double`, as in `m_view_factor > 1`. -/
def ofInt (n : Int) : Double := finite n

/-- IEEE `a < b`: false as soon as one side is NaN. -/
def lt : Double → Double → Bool
  | finite a, finite b => decide (a < b)
  | negInf, finite _ => true
  | negInf, posInf => true
  | finite _, posInf => true
  | _, _ => false

/-- IEEE `a > b`. -/
def gt (a b : Double) : Bool := lt b a

/-- IEEE `a <= b`: false as soon as one side is NaN. -/
def le : Double → Double → Bool
  | nan, _ => false
  | _, nan => false
  | a, b => !(lt b a)

end Double

/-- A `ModelObject` as the translated code uses it: a reference to a record of the model,
known by its handle, that answers `iddObjectType()`. -/
structure ModelObject where
  handle : Handle
  iddObjectType : IddObjectType
  deriving DecidableEq

/-- What a call can end with instead of a value: an `openstudio::Exception` raised by
`LOG_AND_THROW` (one constructor per raising site), or a failed `OS_ASSERT`. -/
inductive Failure where
  | viewFactorMoreThanOne
  | fromSurfaceWrongType
  | toSurfaceWrongType
  | cloneNotAllowed
  | zoneAlreadyHasRelation
  | assertionFailed
  deriving DecidableEq, Repr

deriving instance DecidableEq for Except

/-! ## ViewFactor wrapper -/

/-- The members of the class `ViewFactor`. -/
structure ViewFactor where
  m_from_surface : ModelObject
  m_to_surface : ModelObject
  m_view_factor : Double
  deriving DecidableEq

namespace ViewFactor

/-- Method `ViewFactor::ViewFactor(fromSurface, toSurface, viewFactor)`: the members are
initialised, then the three checks run in the order of the source. -/
def new (fromSurface toSurface : ModelObject) (viewFactor : Double) :
    Except Failure ViewFactor :=
  let self : ViewFactor := ⟨fromSurface, toSurface, viewFactor⟩
  if Double.gt self.m_view_factor (Double.ofInt 1) then
    .error .viewFactorMoreThanOne
  else
    let fromIddType := fromSurface.iddObjectType
    if fromIddType ≠ .OS_Surface ∧ fromIddType ≠ .OS_SubSurface
        ∧ fromIddType ≠ .OS_InternalMass then
      .error .fromSurfaceWrongType
    else
      let toIddType := toSurface.iddObjectType
      if toIddType ≠ .OS_Surface ∧ toIddType ≠ .OS_SubSurface
          ∧ toIddType ≠ .OS_InternalMass then
        .error .toSurfaceWrongType
      else
        .ok self

/-- Method `ViewFactor::fromSurface()`. -/
def fromSurface (self : ViewFactor) : ModelObject := self.m_from_surface

/-- Method `ViewFactor::toSurface()`. -/
def toSurface (self : ViewFactor) : ModelObject := self.m_to_surface

/-- Method `ViewFactor::viewFactor()`. -/
def viewFactor (self : ViewFactor) : Double := self.m_view_factor

end ViewFactor

/-! ## The entity store -/

/-- The extensible fields of the relation record
(`OS_ZoneProperty_UserViewFactors_BySurfaceNameExtensibleFields`). -/
inductive ExtensibleFields where
  | FromSurfaceName
  | ToSurfaceName
  | ViewFactor
  deriving DecidableEq, Repr

/-- Modelled from the spec: an extensible group, "a repeated, positionally-indexed field
block on a host record"; here the block of the relation record, two references and a real,
each of which may be empty. -/
structure ModelExtensibleGroup where
  fromSurfaceName : Option Handle
  toSurfaceName : Option Handle
  viewFactor : Option Double
  deriving DecidableEq

/-- Modelled from the spec: a record of the entity store, with its handle, its type tag,
the reference fields the translated code follows (a surface or an internal mass names its
space, a sub-surface its surface, a space and a relation their thermal zone) and its
extensible groups. -/
structure WorkspaceObject where
  handle : Handle
  iddObjectType : IddObjectType
  spaceName : Option Handle
  surfaceName : Option Handle
  thermalZoneName : Option Handle
  extensibleGroups : List ModelExtensibleGroup
  deriving DecidableEq

/-- Modelled from the spec: the entity store, the records of one model in creation order. -/
structure Model where
  objects : List WorkspaceObject
  deriving DecidableEq

/-- Modelled from the spec: what the code outside the translated file decides.
`assertAborts` says whether a failed `OS_ASSERT` (`Assert.hpp`) ends the call;
`acceptsReal` says which values `setDouble` accepts for the `ViewFactor` field. -/
structure Settings where
  assertAborts : Bool
  acceptsReal : Double → Bool

/-- The empty group `pushExtensibleGroup()` appends. -/
def ModelExtensibleGroup.empty : ModelExtensibleGroup := ⟨none, none, none⟩

/-- Rewrites the group at position `groupIndex`, if there is one. -/
def modifyGroup (f : ModelExtensibleGroup → ModelExtensibleGroup) :
    Nat → List ModelExtensibleGroup → List ModelExtensibleGroup
  | _, [] => []
  | 0, g :: gs => f g :: gs
  | n + 1, g :: gs => g :: modifyGroup f n gs

namespace WorkspaceObject

/-- The reference `ModelObject` that stands for a record. -/
def toModelObject (o : WorkspaceObject) : ModelObject := ⟨o.handle, o.iddObjectType⟩

/-- A freshly created record of the given type: no reference set, no group. -/
def fresh (h : Handle) (t : IddObjectType) : WorkspaceObject :=
  ⟨h, t, none, none, none, []⟩

/-- Whether one of the reference fields of the record names `h`. -/
def pointsTo (o : WorkspaceObject) (h : Handle) : Bool :=
  o.spaceName = some h ∨ o.surfaceName = some h ∨ o.thermalZoneName = some h
    ∨ o.extensibleGroups.any
        (fun g => decide (g.fromSurfaceName = some h ∨ g.toSurfaceName = some h))

/-- Rewrites group `groupIndex` of the record. -/
def modifyGroupAt (o : WorkspaceObject) (groupIndex : Nat)
    (f : ModelExtensibleGroup → ModelExtensibleGroup) : WorkspaceObject :=
  { o with extensibleGroups := modifyGroup f groupIndex o.extensibleGroups }

/-- Empties every reference field of the record that names `h`. -/
def nullifyPointer (o : WorkspaceObject) (h : Handle) : WorkspaceObject :=
  let clear : Option Handle → Option Handle := fun p => if p = some h then none else p
  { o with
    spaceName := clear o.spaceName
    surfaceName := clear o.surfaceName
    thermalZoneName := clear o.thermalZoneName
    extensibleGroups := o.extensibleGroups.map
      (fun g => { g with fromSurfaceName := clear g.fromSurfaceName
                         toSurfaceName := clear g.toSurfaceName }) }

end WorkspaceObject

namespace Model

/-- Modelled from the spec: the record a handle stands for, if the store has one. -/
def getObject (m : Model) (h : Handle) : Option WorkspaceObject :=
  m.objects.find? (fun o => o.handle == h)

/-- Rewrites the record(s) known by handle `h`. -/
def update (m : Model) (h : Handle) (f : WorkspaceObject → WorkspaceObject) : Model :=
  ⟨m.objects.map (fun o => if o.handle = h then f o else o)⟩

/-- Modelled from the spec: `getModelObjectTarget<ModelObject>(field)`, the record a
reference field names, if the field is set and the record is in the store. -/
def getTarget (m : Model) (pointer : Option Handle) : Option WorkspaceObject :=
  match pointer with
  | none => none
  | some h => m.getObject h

/-- Modelled from the spec: `getModelObjectTarget<T>(field)`, as `getTarget` but only when
the record found has the type tag of `T`. -/
def getModelObjectTarget (m : Model) (pointer : Option Handle) (T : IddObjectType) :
    Option WorkspaceObject :=
  match m.getTarget pointer with
  | some o => if o.iddObjectType = T then some o else none
  | none => none

/-- Modelled from the spec: `target.getModelObjectSources<T>(type)`, the records of the
given type one of whose reference fields names `target`. -/
def getModelObjectSources (m : Model) (target : Handle) (type : IddObjectType) :
    List WorkspaceObject :=
  m.objects.filter (fun o => decide (o.iddObjectType = type) && o.pointsTo target)

/-- Modelled from the spec: the `ModelObject(type, model)` base constructor, which creates
a record of the type in the store; `h` is the handle the store gives it. -/
def addObject (m : Model) (h : Handle) (type : IddObjectType) : Model :=
  ⟨m.objects ++ [WorkspaceObject.fresh h type]⟩

/-- Modelled from the spec: `remove()`, which takes the record out of the store and
empties the references other records hold to it. -/
def remove (m : Model) (h : Handle) : Model :=
  ⟨(m.objects.filter (fun o => o.handle != h)).map (fun o => o.nullifyPointer h)⟩

/-- Modelled from the spec: `extensibleGroups()` of the record `this`. -/
def extensibleGroups (m : Model) (this : Handle) : List ModelExtensibleGroup :=
  match m.getObject this with
  | some o => o.extensibleGroups
  | none => []

/-- Modelled from the spec: `numExtensibleGroups()`, the current number of groups (an
`unsigned` in the code; the store addresses groups by `unsigned` index). -/
def numExtensibleGroups (m : Model) (this : Handle) : Nat :=
  (m.extensibleGroups this).length

/-- Modelled from the spec: `pushExtensibleGroup()`, which appends an empty group and
hands back its index. -/
def pushExtensibleGroup (m : Model) (this : Handle) : Nat × Model :=
  (m.numExtensibleGroups this,
   m.update this (fun o => { o with
     extensibleGroups := o.extensibleGroups ++ [ModelExtensibleGroup.empty] }))

/-- Modelled from the spec: `eg.setPointer(field, target)` on group `groupIndex` of the
record `this`. It fails when `target` is not in the store or `field` is not a reference
field, and otherwise stores the handle in that field. -/
def setPointer (m : Model) (this : Handle) (groupIndex : Nat) (field : ExtensibleFields)
    (target : Handle) : Bool × Model :=
  if (m.getObject target).isSome then
    match field with
    | .FromSurfaceName =>
      (true, m.update this (fun o =>
        o.modifyGroupAt groupIndex (fun g => { g with fromSurfaceName := some target })))
    | .ToSurfaceName =>
      (true, m.update this (fun o =>
        o.modifyGroupAt groupIndex (fun g => { g with toSurfaceName := some target })))
    | .ViewFactor => (false, m)
  else
    (false, m)

/-- Modelled from the spec: `eg.setDouble(field, value)` on group `groupIndex` of the
record `this`. It fails when `field` is not the real field or the store refuses the
value, and otherwise stores the value. -/
def setDouble (s : Settings) (m : Model) (this : Handle) (groupIndex : Nat)
    (field : ExtensibleFields) (value : Double) : Bool × Model :=
  match field with
  | .ViewFactor =>
    if s.acceptsReal value then
      (true, m.update this (fun o =>
        o.modifyGroupAt groupIndex (fun g => { g with viewFactor := some value })))
    else
      (false, m)
  | _ => (false, m)

/-- Modelled from the spec: `eraseExtensibleGroup(groupIndex)`, which "removes the edge at
index, shifting subsequent indices down by one". -/
def eraseExtensibleGroup (m : Model) (this : Handle) (groupIndex : Nat) : Model :=
  m.update this (fun o => { o with
    extensibleGroups := o.extensibleGroups.eraseIdx groupIndex })

/-- Modelled from the spec: `clearExtensibleGroups()`, which "clears the sequence
unconditionally". -/
def clearExtensibleGroups (m : Model) (this : Handle) : Model :=
  m.update this (fun o => { o with extensibleGroups := [] })

/-- Modelled from the spec: `setPointer(ThermalZoneName, target)` on the record `this`;
it fails when `target` is not in the store. -/
def setThermalZoneName (m : Model) (this : Handle) (target : Handle) : Bool × Model :=
  if (m.getObject target).isSome then
    (true, m.update this (fun o => { o with thermalZoneName := some target }))
  else
    (false, m)

end Model

/-- Modelled from the spec: `Surface::space()`, the space a surface names. -/
def Surface.space (m : Model) (self : Handle) : Option WorkspaceObject :=
  match m.getObject self with
  | some o => m.getModelObjectTarget o.spaceName .OS_Space
  | none => none

/-- Modelled from the spec: `SubSurface::space()`, the space of the surface a sub-surface
names. -/
def SubSurface.space (m : Model) (self : Handle) : Option WorkspaceObject :=
  match m.getObject self with
  | some o =>
    match m.getModelObjectTarget o.surfaceName .OS_Surface with
    | some surface => Surface.space m surface.handle
    | none => none
  | none => none

/-- Modelled from the spec: `InternalMass::space()`, the space an internal mass names. -/
def InternalMass.space (m : Model) (self : Handle) : Option WorkspaceObject :=
  match m.getObject self with
  | some o => m.getModelObjectTarget o.spaceName .OS_Space
  | none => none

/-- Modelled from the spec: `Space::thermalZone()`, the thermal zone a space names. -/
def Space.thermalZone (m : Model) (self : Handle) : Option WorkspaceObject :=
  match m.getObject self with
  | some o => m.getModelObjectTarget o.thermalZoneName .OS_ThermalZone
  | none => none

/-! ## The relation object -/

namespace ZonePropertyUserViewFactorsBySurfaceName

/-- Method `ZonePropertyUserViewFactorsBySurfaceName::iddObjectType()`. -/
def iddObjectType : IddObjectType := .OS_ZoneProperty_UserViewFactors_BySurfaceName

/-- Method `ZonePropertyUserViewFactorsBySurfaceName_Impl::clone(model)`: it only raises. -/
def clone (m : Model) (_this : Handle) (_model : Model) : Except Failure ModelObject × Model :=
  (.error .cloneNotAllowed, m)

/-- Method `ZonePropertyUserViewFactorsBySurfaceName_Impl::thermalZone()`: the target of the
`ThermalZoneName` field; when there is none the assertion fails and no zone is returned. -/
def thermalZone (m : Model) (this : Handle) : Except Failure WorkspaceObject :=
  let thermalZone : Option WorkspaceObject :=
    match m.getObject this with
    | some o => m.getModelObjectTarget o.thermalZoneName .OS_ThermalZone
    | none => none
  match thermalZone with
  | some zone => .ok zone
  | none => .error .assertionFailed

/-- Method `ZonePropertyUserViewFactorsBySurfaceName_Impl::numberofViewFactors()`. -/
def numberofViewFactors (m : Model) (this : Handle) : Nat :=
  m.numExtensibleGroups this

/-- The lambda `checkIfInThermalZone` of `addViewFactor`, which captures `this`: the
object is cast to one of the three endpoint classes to find its space, and the handle of
that space's thermal zone is compared with `this->handle()`. -/
def checkIfInThermalZone (m : Model) (this : Handle) (modelObject : ModelObject) : Bool :=
  let _space : Option WorkspaceObject :=
    if modelObject.iddObjectType = .OS_Surface then
      Surface.space m modelObject.handle
    else if modelObject.iddObjectType = .OS_SubSurface then
      SubSurface.space m modelObject.handle
    else if modelObject.iddObjectType = .OS_InternalMass then
      InternalMass.space m modelObject.handle
    else
      none
  match _space with
  | some space =>
    match Space.thermalZone m space.handle with
    | some _zone => if _zone.handle = this then true else false
    | none => false
  | none => false

/-- The body of `addViewFactor(const ViewFactor&)` with the membership check it applies to
the two endpoints as an argument. A failed `OS_ASSERT` ends the call where it stands when
assertions abort. -/
def addViewFactorWith (s : Settings) (check : ModelObject → Bool) (m : Model)
    (this : Handle) (viewFactor : ViewFactor) : Except Failure Bool × Model :=
  let fromSurface := viewFactor.fromSurface
  if !check fromSurface then
    (.ok false, m)
  else
    let toSurface := viewFactor.toSurface
    if !check toSurface then
      (.ok false, m)
    else
      let (eg, m1) := m.pushExtensibleGroup this
      let (from_, m2) := m1.setPointer this eg .FromSurfaceName fromSurface.handle
      if !from_ && s.assertAborts then
        (.error .assertionFailed, m2)
      else
        let (to_, m3) := m2.setPointer this eg .FromSurfaceName toSurface.handle
        if !to_ && s.assertAborts then
          (.error .assertionFailed, m3)
        else
          let (value, m4) := m3.setDouble s this eg .ViewFactor viewFactor.viewFactor
          if from_ && to_ && value then
            (.ok true, m4)
          else
            (.ok false, m4.eraseExtensibleGroup this eg)

/-- Method `ZonePropertyUserViewFactorsBySurfaceName_Impl::addViewFactor(const ViewFactor&)`. -/
def addViewFactor (s : Settings) (m : Model) (this : Handle) (viewFactor : ViewFactor) :
    Except Failure Bool × Model :=
  addViewFactorWith s (checkIfInThermalZone m this) m this viewFactor

/-- Method `ZonePropertyUserViewFactorsBySurfaceName_Impl::removeViewFactor(unsigned)`. -/
def removeViewFactor (m : Model) (this : Handle) (groupIndex : Nat) : Bool × Model :=
  let num := numberofViewFactors m this
  if groupIndex < num then
    (true, m.eraseExtensibleGroup this groupIndex)
  else
    (false, m)

/-- Method `ZonePropertyUserViewFactorsBySurfaceName_Impl::removeAllViewFactors()`. -/
def removeAllViewFactors (m : Model) (this : Handle) : Model :=
  m.clearExtensibleGroups this

/-- The loop of `viewFactors()` over the groups still to visit, `result` being the vector
built so far. The `ViewFactor` constructor it calls may raise. -/
def viewFactorsLoop (m : Model) :
    List ModelExtensibleGroup → List ViewFactor → Except Failure (List ViewFactor)
  | [], result => .ok result
  | group :: rest, result =>
    let _toSurface := m.getTarget group.fromSurfaceName
    let _fromSurface := m.getTarget group.toSurfaceName
    let value := group.viewFactor
    match _toSurface with
    | none => .ok []
    | some toSurface =>
      match _fromSurface with
      | none => .ok []
      | some fromSurface =>
        match value with
        | none => .ok []
        | some v =>
          match ViewFactor.new toSurface.toModelObject fromSurface.toModelObject v with
          | .error e => .error e
          | .ok viewFactor => viewFactorsLoop m rest (result ++ [viewFactor])

/-- Method `ZonePropertyUserViewFactorsBySurfaceName_Impl::viewFactors()`. -/
def viewFactors (m : Model) (this : Handle) : Except Failure (List ViewFactor) :=
  viewFactorsLoop m (m.extensibleGroups this) []

/-- The loop of `addViewFactors` over the view factors still to add, `result` being the
flag so far. -/
def addViewFactorsLoop (s : Settings) (this : Handle) :
    List ViewFactor → Bool → Model → Except Failure Bool × Model
  | [], result, m => (.ok result, m)
  | viewFactor :: rest, result, m =>
    match addViewFactor s m this viewFactor with
    | (.error e, m1) => (.error e, m1)
    | (.ok thisResult, m1) =>
      if !thisResult then
        if s.assertAborts then
          (.error .assertionFailed, m1)
        else
          addViewFactorsLoop s this rest false m1
      else
        addViewFactorsLoop s this rest result m1

/-- Method `ZonePropertyUserViewFactorsBySurfaceName_Impl::addViewFactors(viewFactors)`. -/
def addViewFactors (s : Settings) (m : Model) (this : Handle)
    (viewFactors : List ViewFactor) : Except Failure Bool × Model :=
  addViewFactorsLoop s this viewFactors true m

/-- The public constructor `ZonePropertyUserViewFactorsBySurfaceName(thermalZone)`;
`newHandle` is the handle the store gives the record the base constructor creates. The
assertion on `getImpl` holds since that record has the type of the class. -/
def new (s : Settings) (m : Model) (newHandle : Handle) (thermalZone : Handle) :
    Except Failure Handle × Model :=
  let m1 := m.addObject newHandle iddObjectType
  let zoneProps := m1.getModelObjectSources thermalZone iddObjectType
  if !zoneProps.isEmpty then
    (.error .zoneAlreadyHasRelation, m1.remove newHandle)
  else
    let (ok, m2) := m1.setThermalZoneName newHandle thermalZone
    if !ok && s.assertAborts then
      (.error .assertionFailed, m2)
    else
      (.ok newHandle, m2)

/-- The implicit conversion of an `int` argument to an `unsigned` parameter of 32 bits:
the value modulo 2^32. -/
def toUnsigned (groupIndex : Int) : Nat := (groupIndex % 2 ^ 32).toNat

namespace Public

/-- Method `ZonePropertyUserViewFactorsBySurfaceName::removeViewFactor(int)` of the public
class: it passes its `int` to the implementation, whose parameter is `unsigned`, drops
the flag that comes back and returns `void`. -/
def removeViewFactor (m : Model) (this : Handle) (groupIndex : Int) : Unit × Model :=
  let (_, m1) :=
    ZonePropertyUserViewFactorsBySurfaceName.removeViewFactor m this (toUnsigned groupIndex)
  ((), m1)

end Public

end ZonePropertyUserViewFactorsBySurfaceName

/-! ## Notions the properties are stated with -/

/-- The three endpoint kinds a view factor may join. -/
def viewFactorEndpointTypes : List IddObjectType :=
  [.OS_Surface, .OS_SubSurface, .OS_InternalMass]

/-- A weight in the closed interval from 0 to 1. -/
def Double.inUnitInterval (w : Double) : Prop :=
  Double.le (Double.ofInt 0) w = true ∧ Double.le w (Double.ofInt 1) = true

instance (w : Double) : Decidable w.inUnitInterval :=
  inferInstanceAs
    (Decidable (Double.le (Double.ofInt 0) w = true ∧ Double.le w (Double.ofInt 1) = true))

/-- The record `this` is a relation: the store holds it with the type of the class. -/
def isRelation (m : Model) (this : Handle) : Prop :=
  (m.getObject this).map (fun o => o.iddObjectType)
    = some ZonePropertyUserViewFactorsBySurfaceName.iddObjectType

instance (m : Model) (this : Handle) : Decidable (isRelation m this) :=
  inferInstanceAs (Decidable ((m.getObject this).map (fun o => o.iddObjectType)
    = some ZonePropertyUserViewFactorsBySurfaceName.iddObjectType))

/-- The thermal zone an endpoint resolves to: its space (found as for a surface, a
sub-surface or an internal mass), then the thermal zone of that space. -/
def enclosingZone (m : Model) (modelObject : ModelObject) : Option Handle :=
  let space : Option WorkspaceObject :=
    if modelObject.iddObjectType = .OS_Surface then
      Surface.space m modelObject.handle
    else if modelObject.iddObjectType = .OS_SubSurface then
      SubSurface.space m modelObject.handle
    else if modelObject.iddObjectType = .OS_InternalMass then
      InternalMass.space m modelObject.handle
    else
      none
  match space with
  | some sp => (Space.thermalZone m sp.handle).map (fun zone => zone.handle)
  | none => none

/-- The relations of the store whose `ThermalZoneName` field names `zone`. -/
def relationsOf (m : Model) (zone : Handle) : List WorkspaceObject :=
  m.objects.filter (fun o =>
    decide (o.iddObjectType = ZonePropertyUserViewFactorsBySurfaceName.iddObjectType)
      && decide (o.thermalZoneName = some zone))

/-- Every thermal zone is the target of at most one relation. -/
def atMostOneRelationPerZone (m : Model) : Prop :=
  ∀ zone, (relationsOf m zone).length ≤ 1

/-- The store holds no relation at all. -/
def noRelation (m : Model) : Prop :=
  ∀ o ∈ m.objects,
    o.iddObjectType ≠ ZonePropertyUserViewFactorsBySurfaceName.iddObjectType

instance (m : Model) : Decidable (noRelation m) :=
  inferInstanceAs (Decidable (∀ o ∈ m.objects,
    o.iddObjectType ≠ ZonePropertyUserViewFactorsBySurfaceName.iddObjectType))

/-- The store `m2` has, for every zone, as many relations naming it as `m1` has. -/
def sameRelationCounts (m1 m2 : Model) : Prop :=
  ∀ zone, (relationsOf m2 zone).length = (relationsOf m1 zone).length

/-- The model states reached from one without relations by constructing relations (the
store hands out a handle it does not use yet; the construction may succeed or fail) and by
calling `addViewFactor`, `addViewFactors`, `removeViewFactor`, `removeAllViewFactors` and
`clone` on any record, each call leaving the store as it stands when the call ends. -/
inductive Reachable (s : Settings) : Model → Prop where
  | init (m : Model) (h : noRelation m) : Reachable s m
  | construct (m : Model) (newHandle thermalZone : Handle) (hm : Reachable s m)
      (hfresh : m.getObject newHandle = none) :
      Reachable s (ZonePropertyUserViewFactorsBySurfaceName.new s m newHandle thermalZone).2
  | addViewFactor (m : Model) (this : Handle) (viewFactor : ViewFactor)
      (hm : Reachable s m) :
      Reachable s (ZonePropertyUserViewFactorsBySurfaceName.addViewFactor s m this viewFactor).2
  | addViewFactors (m : Model) (this : Handle) (viewFactors : List ViewFactor)
      (hm : Reachable s m) :
      Reachable s
        (ZonePropertyUserViewFactorsBySurfaceName.addViewFactors s m this viewFactors).2
  | removeViewFactor (m : Model) (this : Handle) (groupIndex : Nat) (hm : Reachable s m) :
      Reachable s (ZonePropertyUserViewFactorsBySurfaceName.removeViewFactor m this groupIndex).2
  | removeAllViewFactors (m : Model) (this : Handle) (hm : Reachable s m) :
      Reachable s (ZonePropertyUserViewFactorsBySurfaceName.removeAllViewFactors m this)
  | clone (m : Model) (this : Handle) (model : Model) (hm : Reachable s m) :
      Reachable s (ZonePropertyUserViewFactorsBySurfaceName.clone m this model).2

/-- The calls of `addViewFactor` on the elements of a list, one after the other, each on
the store the call before it left: their outcomes in order, and the store after the last. -/
def individualCalls (s : Settings) (this : Handle) :
    List ViewFactor → Model → List (Except Failure Bool) × Model
  | [], m => ([], m)
  | viewFactor :: rest, m =>
    let call := ZonePropertyUserViewFactorsBySurfaceName.addViewFactor s m this viewFactor
    let others := individualCalls s this rest call.2
    (call.1 :: others.1, others.2)

/-- The three fields of a group can be retrieved: both references name records of the
store and the weight is set. -/
def ModelExtensibleGroup.retrievable (m : Model) (g : ModelExtensibleGroup) : Bool :=
  (m.getTarget g.fromSurfaceName).isSome && (m.getTarget g.toSurfaceName).isSome
    && g.viewFactor.isSome

/-- The view factor a group stands for, when its three fields can be retrieved: from the
target of `FromSurfaceName` to the target of `ToSurfaceName`, with the stored weight. -/
def ModelExtensibleGroup.readViewFactor (m : Model) (g : ModelExtensibleGroup) :
    Option ViewFactor :=
  match m.getTarget g.fromSurfaceName, m.getTarget g.toSurfaceName, g.viewFactor with
  | some f, some t, some v => some ⟨f.toModelObject, t.toModelObject, v⟩
  | _, _, _ => none

/-- The group resolves to two endpoints of the permitted kinds, with a weight of at most 1. -/
def ModelExtensibleGroup.resolvesToPermitted (m : Model) (g : ModelExtensibleGroup) : Bool :=
  match g.readViewFactor m with
  | some vf =>
    decide (vf.fromSurface.iddObjectType ∈ viewFactorEndpointTypes)
      && decide (vf.toSurface.iddObjectType ∈ viewFactorEndpointTypes)
      && Double.le vf.viewFactor (Double.ofInt 1)
  | none => false

/-- If the three fields of the group can be retrieved, the `ViewFactor` constructor
accepts them. -/
def ModelExtensibleGroup.accepted (m : Model) (g : ModelExtensibleGroup) : Bool :=
  match g.readViewFactor m with
  | some vf =>
    match ViewFactor.new vf.fromSurface vf.toSurface vf.viewFactor with
    | .ok _ => true
    | .error _ => false
  | none => true

/-- The handle is new to the store: no record has it and no reference names it. -/
def Model.isFresh (m : Model) (h : Handle) : Prop :=
  m.getObject h = none ∧ ∀ o ∈ m.objects, o.pointsTo h = false

instance (m : Model) (h : Handle) : Decidable (m.isFresh h) :=
  inferInstanceAs (Decidable (m.getObject h = none ∧ ∀ o ∈ m.objects, o.pointsTo h = false))

/-! ## A small model: one zone, one space, a surface with a sub-surface, one relation -/

/-- Thermal zone 1; space 2 in zone 1; surface 3 in space 2; sub-surface 4 on surface 3;
relation 5 of zone 1 with no view factor yet. -/
def exampleModel : Model :=
  ⟨[⟨1, .OS_ThermalZone, none, none, none, []⟩,
    ⟨2, .OS_Space, none, none, some 1, []⟩,
    ⟨3, .OS_Surface, some 2, none, none, []⟩,
    ⟨4, .OS_SubSurface, none, some 3, none, []⟩,
    ⟨5, .OS_ZoneProperty_UserViewFactors_BySurfaceName, none, none, some 1, []⟩]⟩

/-- The view factor 0.5 from surface 3 to sub-surface 4. -/
def exampleViewFactor : ViewFactor :=
  ⟨⟨3, .OS_Surface⟩, ⟨4, .OS_SubSurface⟩, .finite (mkRat 1 2)⟩

/-- The model `exampleModel` before relation 5 is constructed. -/
def exampleModelNoRelation : Model :=
  ⟨[⟨1, .OS_ThermalZone, none, none, none, []⟩,
    ⟨2, .OS_Space, none, none, some 1, []⟩,
    ⟨3, .OS_Surface, some 2, none, none, []⟩,
    ⟨4, .OS_SubSurface, none, some 3, none, []⟩]⟩

/-- The model `exampleModel` once relation 5 stores three groups. -/
def exampleModelThreeGroups : Model :=
  ⟨exampleModelNoRelation.objects ++
    [⟨5, .OS_ZoneProperty_UserViewFactors_BySurfaceName, none, none, some 1,
      [⟨some 3, some 4, some (.finite (mkRat 1 2))⟩,
       ⟨some 4, some 3, some (.finite (mkRat 1 4))⟩,
       ⟨some 3, some 3, some (.finite 0)⟩]⟩]⟩

/-- The model `exampleModel` with a second zone 6, its space 7 and a surface 8 there. -/
def exampleModelTwoZones : Model :=
  ⟨exampleModel.objects ++
    [⟨6, .OS_ThermalZone, none, none, none, []⟩,
     ⟨7, .OS_Space, none, none, some 6, []⟩,
     ⟨8, .OS_Surface, some 7, none, none, []⟩]⟩

/-- The view factor 0.3 from surface 3 (zone 1) to surface 8 (zone 6). -/
def exampleViewFactorAcrossZones : ViewFactor :=
  ⟨⟨3, .OS_Surface⟩, ⟨8, .OS_Surface⟩, .finite (mkRat 3 10)⟩

/-- The view factor 0.25 from sub-surface 4 to surface 3. -/
def exampleViewFactorBack : ViewFactor :=
  ⟨⟨4, .OS_SubSurface⟩, ⟨3, .OS_Surface⟩, .finite (mkRat 1 4)⟩

/-- A batch for relation 5 of `exampleModelTwoZones`: an edge inside zone 1, an edge that
leaves zone 1, and another edge inside zone 1. -/
def exampleBatch : List ViewFactor :=
  [exampleViewFactor, exampleViewFactorAcrossZones, exampleViewFactorBack]

/-- The model `exampleModel` once relation 5 stores the given groups. -/
def exampleModelWithGroups (groups : List ModelExtensibleGroup) : Model :=
  ⟨exampleModelNoRelation.objects ++
    [⟨5, .OS_ZoneProperty_UserViewFactors_BySurfaceName, none, none, some 1, groups⟩]⟩

/-- Relation 5 stores a group with the weight 2, then a group whose from-reference is
empty. -/
def exampleModelWeightTwoThenUnset : Model :=
  exampleModelWithGroups
    [⟨some 3, some 4, some (.finite 2)⟩, ⟨none, some 3, some (.finite (mkRat 1 2))⟩]

/-- Relation 5 stores a well-formed group, then a group whose to-reference is empty. -/
def exampleModelUnsetReference : Model :=
  exampleModelWithGroups
    [⟨some 3, some 4, some (.finite (mkRat 1 2))⟩, ⟨some 4, none, some (.finite (mkRat 1 4))⟩]

/-! ## ViewFactor construction -/

theorem Double.not_gt_one_of_le_one (w : Double) (h : Double.le w (Double.ofInt 1) = true) :
    Double.gt w (Double.ofInt 1) = false := by
  cases w <;> simp_all [Double.le, Double.gt, Double.lt, Double.ofInt]

theorem Double.not_gt_one_of_neg (w : Double) (h : Double.lt w (Double.ofInt 0) = true) :
    Double.gt w (Double.ofInt 1) = false := by
  cases w <;> simp_all [Double.gt, Double.lt, Double.ofInt]
  linarith

theorem ViewFactor.new_ok_of_not_gt_one (fromSurface toSurface : ModelObject) (w : Double)
    (hw : Double.gt w (Double.ofInt 1) = false)
    (hf : fromSurface.iddObjectType ∈ viewFactorEndpointTypes)
    (ht : toSurface.iddObjectType ∈ viewFactorEndpointTypes) :
    ViewFactor.new fromSurface toSurface w = .ok ⟨fromSurface, toSurface, w⟩ := by
  simp only [viewFactorEndpointTypes, List.mem_cons, List.mem_singleton, List.not_mem_nil,
    or_false] at hf ht
  unfold ViewFactor.new
  simp only [hw]
  rcases hf with hf | hf | hf <;> rcases ht with ht | ht | ht <;> simp [hf, ht]

/-- C3: for endpoints of kind Surface, SubSurface or InternalMass, constructing a
ViewFactor with a weight between 0 and 1 (1 included) succeeds and the three getters
return the three constructor arguments; with a weight above 1 the constructor throws. -/
theorem ViewFactor.new_weight_bounds (fromSurface toSurface : ModelObject) (w : Double)
    (hf : fromSurface.iddObjectType ∈ viewFactorEndpointTypes)
    (ht : toSurface.iddObjectType ∈ viewFactorEndpointTypes) :
    (w.inUnitInterval →
      ∃ vf, ViewFactor.new fromSurface toSurface w = .ok vf
        ∧ vf.fromSurface = fromSurface ∧ vf.toSurface = toSurface ∧ vf.viewFactor = w)
    ∧ ViewFactor.new fromSurface toSurface (Double.ofInt 1)
        = .ok ⟨fromSurface, toSurface, Double.ofInt 1⟩
    ∧ (Double.gt w (Double.ofInt 1) = true →
      ViewFactor.new fromSurface toSurface w = .error .viewFactorMoreThanOne) := by
  refine ⟨fun hw => ⟨⟨fromSurface, toSurface, w⟩, ?_, rfl, rfl, rfl⟩, ?_, fun hw => ?_⟩
  · exact ViewFactor.new_ok_of_not_gt_one _ _ _ (Double.not_gt_one_of_le_one w hw.2) hf ht
  · exact ViewFactor.new_ok_of_not_gt_one _ _ _ (by decide) hf ht
  · simp [ViewFactor.new, hw]

theorem ViewFactor.new_weight_bounds_witness :
    (∃ vf, ViewFactor.new ⟨3, .OS_Surface⟩ ⟨4, .OS_SubSurface⟩ (.finite (mkRat 1 2)) = .ok vf
        ∧ vf.fromSurface = ⟨3, .OS_Surface⟩ ∧ vf.toSurface = ⟨4, .OS_SubSurface⟩
        ∧ vf.viewFactor = .finite (mkRat 1 2))
    ∧ ViewFactor.new ⟨3, .OS_Surface⟩ ⟨4, .OS_SubSurface⟩ (.finite (mkRat 3 2))
        = .error .viewFactorMoreThanOne :=
  have h := ViewFactor.new_weight_bounds ⟨3, .OS_Surface⟩ ⟨4, .OS_SubSurface⟩
    (.finite (mkRat 1 2)) (by decide) (by decide)
  have h2 := ViewFactor.new_weight_bounds ⟨3, .OS_Surface⟩ ⟨4, .OS_SubSurface⟩
    (.finite (mkRat 3 2)) (by decide) (by decide)
  ⟨h.1 (by decide), h2.2.2 (by decide)⟩

/-- C4, as the claim states it, fails: the weight -1 is below 0 and the constructor
accepts it. -/
theorem ViewFactor.new_negative_weight_accepted :
    Double.lt (.finite (-1)) (Double.ofInt 0) = true
    ∧ ViewFactor.new ⟨3, .OS_Surface⟩ ⟨4, .OS_SubSurface⟩ (.finite (-1))
        = .ok ⟨⟨3, .OS_Surface⟩, ⟨4, .OS_SubSurface⟩, .finite (-1)⟩ := by
  decide

/-- C4, amended: for endpoints of kind Surface, SubSurface or InternalMass and every
weight below 0, constructing a ViewFactor succeeds and viewFactor() returns that weight;
the only weights the constructor rejects are those above 1. -/
theorem ViewFactor.new_negative_weight (fromSurface toSurface : ModelObject) (w : Double)
    (hf : fromSurface.iddObjectType ∈ viewFactorEndpointTypes)
    (ht : toSurface.iddObjectType ∈ viewFactorEndpointTypes)
    (hw : Double.lt w (Double.ofInt 0) = true) :
    ∃ vf, ViewFactor.new fromSurface toSurface w = .ok vf ∧ vf.viewFactor = w :=
  ⟨⟨fromSurface, toSurface, w⟩,
    ViewFactor.new_ok_of_not_gt_one _ _ _ (Double.not_gt_one_of_neg w hw) hf ht, rfl⟩

theorem ViewFactor.new_negative_weight_witness :
    ∃ vf, ViewFactor.new ⟨3, .OS_Surface⟩ ⟨4, .OS_InternalMass⟩ (.finite (-2)) = .ok vf
      ∧ vf.viewFactor = .finite (-2) :=
  ViewFactor.new_negative_weight ⟨3, .OS_Surface⟩ ⟨4, .OS_InternalMass⟩ (.finite (-2))
    (by decide) (by decide) (by decide)

/-- C5: for a weight between 0 and 1, ViewFactor construction succeeds for each of the 9
combinations of endpoint types drawn from Surface, SubSurface and InternalMass, and it
throws as soon as the from endpoint or the to endpoint has any other type. -/
theorem ViewFactor.new_endpoint_types (w : Double) (hw : w.inUnitInterval) :
    (∀ a ∈ viewFactorEndpointTypes, ∀ b ∈ viewFactorEndpointTypes,
      ∀ hFrom hTo : Handle,
        ViewFactor.new ⟨hFrom, a⟩ ⟨hTo, b⟩ w = .ok ⟨⟨hFrom, a⟩, ⟨hTo, b⟩, w⟩)
    ∧ (∀ fromSurface toSurface : ModelObject,
        fromSurface.iddObjectType ∉ viewFactorEndpointTypes
          ∨ toSurface.iddObjectType ∉ viewFactorEndpointTypes →
        ViewFactor.new fromSurface toSurface w = .error .fromSurfaceWrongType
          ∨ ViewFactor.new fromSurface toSurface w = .error .toSurfaceWrongType) := by
  have h1 := Double.not_gt_one_of_le_one w hw.2
  refine ⟨fun a ha b hb hFrom hTo => ViewFactor.new_ok_of_not_gt_one _ _ _ h1 ha hb, ?_⟩
  intro fromSurface toSurface h
  simp only [viewFactorEndpointTypes, List.mem_cons, List.mem_singleton, List.not_mem_nil,
    or_false, not_or] at h
  unfold ViewFactor.new
  simp only [h1]
  by_cases hf : fromSurface.iddObjectType ≠ .OS_Surface
      ∧ fromSurface.iddObjectType ≠ .OS_SubSurface
      ∧ fromSurface.iddObjectType ≠ .OS_InternalMass
  · left
    simp [hf]
  · right
    rcases h with h | h
    · exact absurd h hf
    · simp [hf, h]

theorem ViewFactor.new_endpoint_types_witness :
    ViewFactor.new ⟨3, .OS_InternalMass⟩ ⟨4, .OS_SubSurface⟩ (.finite (mkRat 1 4))
        = .ok ⟨⟨3, .OS_InternalMass⟩, ⟨4, .OS_SubSurface⟩, .finite (mkRat 1 4)⟩
    ∧ (ViewFactor.new ⟨3, .OS_Space⟩ ⟨4, .OS_SubSurface⟩ (.finite (mkRat 1 4))
          = .error .fromSurfaceWrongType
        ∨ ViewFactor.new ⟨3, .OS_Space⟩ ⟨4, .OS_SubSurface⟩ (.finite (mkRat 1 4))
          = .error .toSurfaceWrongType) :=
  have h := ViewFactor.new_endpoint_types (.finite (mkRat 1 4)) (by decide)
  ⟨h.1 _ (by decide) _ (by decide) 3 4, h.2 ⟨3, .OS_Space⟩ ⟨4, .OS_SubSurface⟩ (by decide)⟩

/-! ## Looking records up -/

theorem Model.getObject_handle {m : Model} {h : Handle} {o : WorkspaceObject}
    (hget : m.getObject h = some o) : o.handle = h := by
  have := List.find?_some hget
  simpa using this

theorem Model.getObject_mem {m : Model} {h : Handle} {o : WorkspaceObject}
    (hget : m.getObject h = some o) : o ∈ m.objects :=
  List.mem_of_find?_eq_some hget

theorem Model.getModelObjectTarget_some {m : Model} {p : Option Handle} {T : IddObjectType}
    {o : WorkspaceObject} (h : m.getModelObjectTarget p T = some o) :
    o.iddObjectType = T ∧ m.getObject o.handle = some o ∧ p = some o.handle := by
  unfold Model.getModelObjectTarget Model.getTarget at h
  cases p with
  | none => simp at h
  | some hp =>
    simp only at h
    cases hget : m.getObject hp with
    | none => simp [hget] at h
    | some o2 =>
      simp only [hget] at h
      by_cases ht : o2.iddObjectType = T
      · simp only [ht, if_true, Option.some.injEq] at h
        subst h
        exact ⟨ht, by rw [Model.getObject_handle hget]; exact hget,
          by rw [Model.getObject_handle hget]⟩
      · simp [ht] at h

theorem Space.thermalZone_some {m : Model} {self : Handle} {zone : WorkspaceObject}
    (h : Space.thermalZone m self = some zone) :
    zone.iddObjectType = .OS_ThermalZone ∧ m.getObject zone.handle = some zone := by
  unfold Space.thermalZone at h
  cases hget : m.getObject self with
  | none => simp [hget] at h
  | some o =>
    simp only [hget] at h
    exact ⟨(Model.getModelObjectTarget_some h).1, (Model.getModelObjectTarget_some h).2.1⟩

/-! ## addViewFactor -/

namespace ZonePropertyUserViewFactorsBySurfaceName

/-- The handle of a thermal zone found through a space is never the handle of a relation
record, so the comparison with `this->handle()` fails for every object. -/
theorem checkIfInThermalZone_of_isRelation (m : Model) (this : Handle)
    (modelObject : ModelObject) (hrel : isRelation m this) :
    checkIfInThermalZone m this modelObject = false := by
  unfold isRelation at hrel
  cases hr : m.getObject this with
  | none => simp [hr] at hrel
  | some r =>
  have hrt : r.iddObjectType = iddObjectType := by simpa [hr] using hrel
  unfold checkIfInThermalZone
  simp only
  split
  · rename_i space hspace
    split
    · rename_i zone hzone
      have hz := Space.thermalZone_some hzone
      by_cases heq : zone.handle = this
      · rw [heq, hr] at hz
        have h2 := hz.2
        simp only [Option.some.injEq] at h2
        rw [h2, hz.1] at hrt
        exact absurd hrt (by decide)
      · simp [heq]
    · rfl
  · rfl

theorem addViewFactorWith_of_check_false (s : Settings) (check : ModelObject → Bool)
    (m : Model) (this : Handle) (viewFactor : ViewFactor)
    (h : check viewFactor.fromSurface = false ∨ check viewFactor.toSurface = false) :
    addViewFactorWith s check m this viewFactor = (.ok false, m) := by
  unfold addViewFactorWith
  by_cases hf : check viewFactor.fromSurface = false
  · simp [hf]
  · have ht : check viewFactor.toSurface = false := by
      rcases h with h | h
      · exact absurd h hf
      · exact h
    simp [hf, ht]

theorem addViewFactor_of_isRelation (s : Settings) (m : Model) (this : Handle)
    (viewFactor : ViewFactor) (hrel : isRelation m this) :
    addViewFactor s m this viewFactor = (.ok false, m) :=
  addViewFactorWith_of_check_false s _ m this viewFactor
    (Or.inl (checkIfInThermalZone_of_isRelation m this _ hrel))

/-- C1, the code at a failing input: in `exampleModel` relation 5 belongs to zone 1 and
the two endpoints of `exampleViewFactor` resolve to zone 1, yet `addViewFactor` returns
false and the number of view factors stays 0. -/
theorem addViewFactor_rejects_endpoints_of_own_zone (s : Settings) :
    isRelation exampleModel 5
    ∧ (thermalZone exampleModel 5).map (fun zone => zone.handle) = .ok 1
    ∧ enclosingZone exampleModel exampleViewFactor.fromSurface = some 1
    ∧ enclosingZone exampleModel exampleViewFactor.toSurface = some 1
    ∧ addViewFactor s exampleModel 5 exampleViewFactor = (.ok false, exampleModel)
    ∧ numberofViewFactors exampleModel 5 = 0
    ∧ numberofViewFactors (addViewFactor s exampleModel 5 exampleViewFactor).2 5 = 0 := by
  have hrel : isRelation exampleModel 5 := by decide
  have hadd := addViewFactor_of_isRelation s exampleModel 5 exampleViewFactor hrel
  refine ⟨hrel, by decide, by decide, by decide, hadd, by decide, ?_⟩
  rw [hadd]
  decide

/-- C2: when the from endpoint or the to endpoint of a view factor does not resolve to
the thermal zone that owns the relation (another zone, no space, or no zone),
`addViewFactor` returns false and leaves the store, hence the stored groups, the count
and `viewFactors()`, as they were. -/
theorem addViewFactor_endpoint_not_in_zone (s : Settings) (m : Model) (this : Handle)
    (zone : WorkspaceObject) (viewFactor : ViewFactor)
    (hrel : isRelation m this) (hzone : thermalZone m this = .ok zone)
    (h : enclosingZone m viewFactor.fromSurface ≠ some zone.handle
      ∨ enclosingZone m viewFactor.toSurface ≠ some zone.handle) :
    (addViewFactor s m this viewFactor).1 = .ok false
    ∧ (addViewFactor s m this viewFactor).2 = m
    ∧ (addViewFactor s m this viewFactor).2.extensibleGroups this = m.extensibleGroups this
    ∧ numberofViewFactors (addViewFactor s m this viewFactor).2 this
        = numberofViewFactors m this
    ∧ viewFactors (addViewFactor s m this viewFactor).2 this = viewFactors m this := by
  have hadd := addViewFactor_of_isRelation s m this viewFactor hrel
  simp [hadd]

theorem addViewFactor_endpoint_not_in_zone_witness :
    (addViewFactor ⟨true, fun _ => true⟩ exampleModelTwoZones 5
        exampleViewFactorAcrossZones).1 = .ok false
    ∧ (addViewFactor ⟨true, fun _ => true⟩ exampleModelTwoZones 5
        exampleViewFactorAcrossZones).2 = exampleModelTwoZones :=
  have h := addViewFactor_endpoint_not_in_zone ⟨true, fun _ => true⟩ exampleModelTwoZones 5
    ⟨1, .OS_ThermalZone, none, none, none, []⟩ exampleViewFactorAcrossZones
    (by decide) (by decide) (Or.inr (by decide))
  ⟨h.1, h.2.1⟩

/-! ## Construction of a relation -/

theorem thermalZone_ok {m : Model} {this : Handle} {zone : WorkspaceObject}
    (h : thermalZone m this = .ok zone) :
    ∃ r, m.getObject this = some r ∧ r.thermalZoneName = some zone.handle
      ∧ zone.iddObjectType = .OS_ThermalZone ∧ m.getObject zone.handle = some zone := by
  unfold thermalZone at h
  cases hget : m.getObject this with
  | none => simp [hget] at h
  | some r =>
    simp only [hget] at h
    cases ht : m.getModelObjectTarget r.thermalZoneName .OS_ThermalZone with
    | none => simp [ht] at h
    | some z =>
      simp only [ht, Except.ok.injEq] at h
      subst h
      have := Model.getModelObjectTarget_some ht
      exact ⟨r, rfl, this.2.2, this.1, this.2.1⟩

/-- C6: when thermal zone Z is already the target of a relation of the model, whatever
groups that relation holds, constructing another relation for Z throws. -/
theorem new_fails_when_zone_has_relation (s : Settings) (m : Model)
    (this newHandle : Handle) (zone : WorkspaceObject)
    (hrel : isRelation m this) (hzone : thermalZone m this = .ok zone) :
    (new s m newHandle zone.handle).1 = .error .zoneAlreadyHasRelation := by
  obtain ⟨r, hr, hrz, -, -⟩ := thermalZone_ok hzone
  have hrt : r.iddObjectType = iddObjectType := by
    unfold isRelation at hrel
    simpa [hr] using hrel
  have hmem : r ∈ (m.addObject newHandle iddObjectType).getModelObjectSources
      zone.handle iddObjectType := by
    unfold Model.getModelObjectSources Model.addObject
    simp only [List.mem_filter, List.mem_append]
    refine ⟨Or.inl (Model.getObject_mem hr), ?_⟩
    simp [hrt, WorkspaceObject.pointsTo, hrz]
  unfold new
  have hne : ((m.addObject newHandle iddObjectType).getModelObjectSources
      zone.handle iddObjectType).isEmpty = false := by
    cases hl : (m.addObject newHandle iddObjectType).getModelObjectSources
      zone.handle iddObjectType with
    | nil => rw [hl] at hmem; simp at hmem
    | cons a l => rfl
  simp [hne]

theorem new_fails_when_zone_has_relation_witness :
    (new ⟨true, fun _ => true⟩ exampleModel 9 1).1 = .error .zoneAlreadyHasRelation :=
  new_fails_when_zone_has_relation ⟨true, fun _ => true⟩ exampleModel 5 9
    ⟨1, .OS_ThermalZone, none, none, none, []⟩ (by decide) (by decide)

/-! ## One relation per zone -/

theorem sameRelationCounts_refl (m : Model) : sameRelationCounts m m := fun _ => rfl

theorem sameRelationCounts_trans {m1 m2 m3 : Model} (h12 : sameRelationCounts m1 m2)
    (h23 : sameRelationCounts m2 m3) : sameRelationCounts m1 m3 :=
  fun zone => (h23 zone).trans (h12 zone)

theorem sameRelationCounts_update (m : Model) (h : Handle)
    (f : WorkspaceObject → WorkspaceObject)
    (hf : ∀ o, (f o).iddObjectType = o.iddObjectType
      ∧ (f o).thermalZoneName = o.thermalZoneName) :
    sameRelationCounts m (m.update h f) := by
  intro zone
  unfold relationsOf Model.update
  rw [← List.countP_eq_length_filter, ← List.countP_eq_length_filter, List.countP_map]
  congr 1
  funext o
  simp only [Function.comp]
  split <;> simp [hf]

theorem sameRelationCounts_pushExtensibleGroup (m : Model) (this : Handle) :
    sameRelationCounts m (m.pushExtensibleGroup this).2 :=
  sameRelationCounts_update m this _ (fun _ => ⟨rfl, rfl⟩)

theorem sameRelationCounts_setPointer (m : Model) (this : Handle) (groupIndex : Nat)
    (field : ExtensibleFields) (target : Handle) :
    sameRelationCounts m (m.setPointer this groupIndex field target).2 := by
  unfold Model.setPointer
  split
  · cases field
    · exact sameRelationCounts_update m this _ (fun _ => ⟨rfl, rfl⟩)
    · exact sameRelationCounts_update m this _ (fun _ => ⟨rfl, rfl⟩)
    · exact sameRelationCounts_refl m
  · exact sameRelationCounts_refl m

theorem sameRelationCounts_setDouble (s : Settings) (m : Model) (this : Handle)
    (groupIndex : Nat) (field : ExtensibleFields) (value : Double) :
    sameRelationCounts m (m.setDouble s this groupIndex field value).2 := by
  unfold Model.setDouble
  cases field
  · exact sameRelationCounts_refl m
  · exact sameRelationCounts_refl m
  · simp only
    split
    · exact sameRelationCounts_update m this _ (fun _ => ⟨rfl, rfl⟩)
    · exact sameRelationCounts_refl m

theorem sameRelationCounts_eraseExtensibleGroup (m : Model) (this : Handle)
    (groupIndex : Nat) : sameRelationCounts m (m.eraseExtensibleGroup this groupIndex) :=
  sameRelationCounts_update m this _ (fun _ => ⟨rfl, rfl⟩)

theorem sameRelationCounts_clearExtensibleGroups (m : Model) (this : Handle) :
    sameRelationCounts m (m.clearExtensibleGroups this) :=
  sameRelationCounts_update m this _ (fun _ => ⟨rfl, rfl⟩)

theorem sameRelationCounts_addViewFactorWith (s : Settings) (check : ModelObject → Bool)
    (m : Model) (this : Handle) (viewFactor : ViewFactor) :
    sameRelationCounts m (addViewFactorWith s check m this viewFactor).2 := by
  have h1 := sameRelationCounts_pushExtensibleGroup m this
  have h2 := sameRelationCounts_trans h1 (sameRelationCounts_setPointer
    (m.pushExtensibleGroup this).2 this (m.pushExtensibleGroup this).1 .FromSurfaceName
    viewFactor.fromSurface.handle)
  have h3 := sameRelationCounts_trans h2 (sameRelationCounts_setPointer
    ((m.pushExtensibleGroup this).2.setPointer this (m.pushExtensibleGroup this).1
      .FromSurfaceName viewFactor.fromSurface.handle).2 this (m.pushExtensibleGroup this).1
    .FromSurfaceName viewFactor.toSurface.handle)
  have h4 := sameRelationCounts_trans h3 (sameRelationCounts_setDouble s
    (((m.pushExtensibleGroup this).2.setPointer this (m.pushExtensibleGroup this).1
      .FromSurfaceName viewFactor.fromSurface.handle).2.setPointer this
      (m.pushExtensibleGroup this).1 .FromSurfaceName viewFactor.toSurface.handle).2
    this (m.pushExtensibleGroup this).1 .ViewFactor viewFactor.viewFactor)
  have h5 := sameRelationCounts_trans h4 (sameRelationCounts_eraseExtensibleGroup
    ((((m.pushExtensibleGroup this).2.setPointer this (m.pushExtensibleGroup this).1
      .FromSurfaceName viewFactor.fromSurface.handle).2.setPointer this
      (m.pushExtensibleGroup this).1 .FromSurfaceName viewFactor.toSurface.handle).2.setDouble
      s this (m.pushExtensibleGroup this).1 .ViewFactor viewFactor.viewFactor).2
    this (m.pushExtensibleGroup this).1)
  unfold addViewFactorWith
  simp only
  split
  · exact sameRelationCounts_refl m
  · split
    · exact sameRelationCounts_refl m
    · split
      · exact h2
      · split
        · exact h3
        · split
          · exact h4
          · exact h5

theorem sameRelationCounts_addViewFactorsLoop (s : Settings) (this : Handle)
    (viewFactors : List ViewFactor) (result : Bool) (m : Model) :
    sameRelationCounts m (addViewFactorsLoop s this viewFactors result m).2 := by
  induction viewFactors generalizing result m with
  | nil => exact sameRelationCounts_refl m
  | cons viewFactor rest ih =>
    have h1 : sameRelationCounts m (addViewFactor s m this viewFactor).2 :=
      sameRelationCounts_addViewFactorWith s _ m this viewFactor
    unfold addViewFactorsLoop
    rcases hadd : addViewFactor s m this viewFactor with ⟨r, m1⟩
    rw [hadd] at h1
    cases r with
    | error e => exact h1
    | ok thisResult =>
      simp only
      split
      · split
        · exact h1
        · exact sameRelationCounts_trans h1 (ih false m1)
      · exact sameRelationCounts_trans h1 (ih result m1)

theorem sameRelationCounts_removeViewFactor (m : Model) (this : Handle) (groupIndex : Nat) :
    sameRelationCounts m (removeViewFactor m this groupIndex).2 := by
  unfold removeViewFactor
  simp only
  split
  · exact sameRelationCounts_eraseExtensibleGroup m this groupIndex
  · exact sameRelationCounts_refl m

theorem relationsOf_remove_le (m : Model) (h zone : Handle) :
    (relationsOf (m.remove h) zone).length ≤ (relationsOf m zone).length := by
  unfold relationsOf Model.remove
  rw [← List.countP_eq_length_filter, ← List.countP_eq_length_filter, List.countP_map]
  refine le_trans (List.countP_mono_left ?_) (List.Sublist.countP_le _ (List.filter_sublist _))
  intro o _ ho
  simp only [Function.comp, WorkspaceObject.nullifyPointer, Bool.and_eq_true,
    decide_eq_true_eq] at ho ⊢
  refine ⟨ho.1, ?_⟩
  have h2 := ho.2
  split at h2
  · exact absurd h2 (by simp)
  · exact h2

theorem relationsOf_addObject (m : Model) (h zone : Handle) (type : IddObjectType) :
    (relationsOf (m.addObject h type) zone).length = (relationsOf m zone).length := by
  unfold relationsOf Model.addObject
  simp [List.filter_append, WorkspaceObject.fresh]

theorem atMostOneRelationPerZone_new (s : Settings) (m : Model)
    (newHandle thermalZone : Handle) (hm : atMostOneRelationPerZone m)
    (hfresh : m.getObject newHandle = none) :
    atMostOneRelationPerZone (new s m newHandle thermalZone).2 := by
  have hfail : atMostOneRelationPerZone
      ((m.addObject newHandle iddObjectType).remove newHandle) := fun zone =>
    le_trans (relationsOf_remove_le _ newHandle zone)
      (by rw [relationsOf_addObject]; exact hm zone)
  have hadd : atMostOneRelationPerZone (m.addObject newHandle iddObjectType) := fun zone => by
    rw [relationsOf_addObject]; exact hm zone
  have hset : ((m.addObject newHandle iddObjectType).getModelObjectSources thermalZone
        iddObjectType).isEmpty = true →
      atMostOneRelationPerZone
        ((m.addObject newHandle iddObjectType).setThermalZoneName newHandle thermalZone).2 := by
    intro hempty
    unfold Model.setThermalZoneName
    split
    · intro zone
      have hold : ∀ o ∈ m.objects, ¬ o.handle = newHandle := by
        intro o ho heq
        have := List.find?_eq_none.mp hfresh o ho
        simp [heq] at this
      have hmap : m.objects.map (fun o => if o.handle = newHandle then
          { o with thermalZoneName := some thermalZone } else o) = m.objects := by
        conv => rhs; rw [← List.map_id m.objects]
        apply List.map_congr_left
        intro o ho
        simp [hold o ho]
      unfold relationsOf Model.update Model.addObject
      simp only [List.map_append, hmap, List.filter_append, List.length_append,
        List.map_cons, List.map_nil, WorkspaceObject.fresh, if_true]
      by_cases hz : zone = thermalZone
      · subst hz
        have hnone : (m.objects.filter (fun o =>
            decide (o.iddObjectType = iddObjectType)
              && decide (o.thermalZoneName = some zone))) = [] := by
          rw [List.filter_eq_nil_iff]
          intro o ho hp
          simp only [Bool.and_eq_true, decide_eq_true_eq] at hp
          have hsrc : o ∈ (m.addObject newHandle iddObjectType).getModelObjectSources zone
              iddObjectType := by
            unfold Model.getModelObjectSources Model.addObject
            simp only [List.mem_filter, List.mem_append]
            refine ⟨Or.inl ho, ?_⟩
            simp [hp.1, WorkspaceObject.pointsTo, hp.2]
          rw [List.isEmpty_iff] at hempty
          rw [hempty] at hsrc
          simp at hsrc
        rw [hnone]
        simp
      · have := hm zone
        unfold relationsOf at this
        have hne : ¬ thermalZone = zone := fun h => hz h.symm
        simp [hne]
        exact this
    · exact hadd
  unfold new
  simp only
  split
  · exact hfail
  · rename_i hempty
    have he : ((m.addObject newHandle iddObjectType).getModelObjectSources thermalZone
        iddObjectType).isEmpty = true := by simpa using hempty
    split <;> exact hset he

/-- C7: in every model state reached from one without relations by relation
constructions (successful or failed), `addViewFactor`, `addViewFactors`,
`removeViewFactor`, `removeAllViewFactors` and `clone` attempts, each thermal zone is the
target of at most one relation. -/
theorem reachable_atMostOneRelationPerZone (s : Settings) (m : Model)
    (h : Reachable s m) : atMostOneRelationPerZone m := by
  induction h with
  | init m h =>
    intro zone
    have : relationsOf m zone = [] := by
      unfold relationsOf
      rw [List.filter_eq_nil_iff]
      intro o ho
      simp [h o ho]
    simp [this]
  | construct m newHandle thermalZone _ hfresh ih =>
    exact atMostOneRelationPerZone_new s m newHandle thermalZone ih hfresh
  | addViewFactor m this viewFactor _ ih =>
    intro zone
    have h := sameRelationCounts_addViewFactorWith s (checkIfInThermalZone m this) m this
      viewFactor zone
    exact le_of_eq_of_le h (ih zone)
  | addViewFactors m this viewFactors _ ih =>
    intro zone
    have h := sameRelationCounts_addViewFactorsLoop s this viewFactors true m zone
    exact le_of_eq_of_le h (ih zone)
  | removeViewFactor m this groupIndex _ ih =>
    intro zone
    rw [sameRelationCounts_removeViewFactor m this groupIndex zone]
    exact ih zone
  | removeAllViewFactors m this _ ih =>
    intro zone
    have h := sameRelationCounts_clearExtensibleGroups m this zone
    exact le_of_eq_of_le h (ih zone)
  | clone m this model _ ih => exact ih

theorem reachable_atMostOneRelationPerZone_witness :
    (new ⟨true, fun _ => true⟩ exampleModelNoRelation 5 1).2 = exampleModel
    ∧ atMostOneRelationPerZone (new ⟨true, fun _ => true⟩ exampleModel 9 1).2 :=
  ⟨by decide,
   reachable_atMostOneRelationPerZone ⟨true, fun _ => true⟩ _
    (Reachable.construct exampleModel 9 1
      (Reachable.construct exampleModelNoRelation 5 1
        (Reachable.init exampleModelNoRelation (by decide)) (by decide))
      (by decide))⟩

end ZonePropertyUserViewFactorsBySurfaceName

/-! ## Removing view factors -/

theorem Model.getObject_update (m : Model) (this : Handle)
    (f : WorkspaceObject → WorkspaceObject) (hf : ∀ o, (f o).handle = o.handle) :
    (m.update this f).getObject this = (m.getObject this).map f := by
  unfold Model.getObject Model.update
  simp only
  induction m.objects with
  | nil => rfl
  | cons o rest ih =>
    by_cases h : o.handle = this
    · simp [List.find?_cons, h, hf]
    · simp only [List.map_cons, h, if_false, List.find?_cons]
      have hb : (o.handle == this) = false := by simpa using h
      rw [hb]
      exact ih

theorem Model.extensibleGroups_update (m : Model) (this : Handle)
    (g : List ModelExtensibleGroup → List ModelExtensibleGroup) (hg : g [] = []) :
    (m.update this (fun o => { o with extensibleGroups := g o.extensibleGroups })).extensibleGroups
        this
      = g (m.extensibleGroups this) := by
  unfold Model.extensibleGroups
  rw [Model.getObject_update m this
    (fun o => { o with extensibleGroups := g o.extensibleGroups }) (fun _ => rfl)]
  cases m.getObject this with
  | none => simp [hg]
  | some o => rfl

namespace ZonePropertyUserViewFactorsBySurfaceName

/-- C8: with n stored groups and an index i below n, `removeViewFactor(i)` returns true
and the stored sequence becomes the groups before position i followed by the groups after
it: the count is n - 1, positions below i keep their group, and every position from i on
holds the group that was one position higher. -/
theorem removeViewFactor_in_range (m : Model) (this : Handle) (groupIndex : Nat)
    (h : groupIndex < numberofViewFactors m this) :
    (removeViewFactor m this groupIndex).1 = true
    ∧ (removeViewFactor m this groupIndex).2.extensibleGroups this
        = (m.extensibleGroups this).take groupIndex
          ++ (m.extensibleGroups this).drop (groupIndex + 1)
    ∧ numberofViewFactors (removeViewFactor m this groupIndex).2 this
        = numberofViewFactors m this - 1
    ∧ (∀ j, j < groupIndex →
        ((removeViewFactor m this groupIndex).2.extensibleGroups this)[j]?
          = (m.extensibleGroups this)[j]?)
    ∧ (∀ j, groupIndex ≤ j →
        ((removeViewFactor m this groupIndex).2.extensibleGroups this)[j]?
          = (m.extensibleGroups this)[j + 1]?) := by
  have hres : removeViewFactor m this groupIndex
      = (true, m.eraseExtensibleGroup this groupIndex) := by
    unfold removeViewFactor
    simp [h]
  have hgroups : (m.eraseExtensibleGroup this groupIndex).extensibleGroups this
      = (m.extensibleGroups this).eraseIdx groupIndex :=
    Model.extensibleGroups_update m this (fun gs => gs.eraseIdx groupIndex) rfl
  have hlen : groupIndex < (m.extensibleGroups this).length := h
  rw [hres]
  dsimp only
  rw [hgroups]
  refine ⟨rfl, List.eraseIdx_eq_take_drop_succ _ _, ?_, ?_, ?_⟩
  · unfold numberofViewFactors Model.numExtensibleGroups
    rw [hgroups, List.length_eraseIdx, if_pos hlen]
  · intro j hj
    rw [List.getElem?_eraseIdx, if_pos hj]
  · intro j hj
    rw [List.getElem?_eraseIdx, if_neg (by omega)]

theorem removeViewFactor_in_range_witness :
    (removeViewFactor exampleModelThreeGroups 5 1).1 = true
    ∧ (removeViewFactor exampleModelThreeGroups 5 1).2.extensibleGroups 5
        = [⟨some 3, some 4, some (.finite (mkRat 1 2))⟩, ⟨some 3, some 3, some (.finite 0)⟩] :=
  have h := removeViewFactor_in_range exampleModelThreeGroups 5 1 (by decide)
  ⟨h.1, h.2.1.trans (by decide)⟩

/-- C9: with n stored groups and an index at or beyond n (any index when n is 0),
`removeViewFactor` returns false and leaves the store, hence the stored sequence, as it
was. -/
theorem removeViewFactor_out_of_range (m : Model) (this : Handle) (groupIndex : Nat)
    (h : numberofViewFactors m this ≤ groupIndex) :
    removeViewFactor m this groupIndex = (false, m)
    ∧ (removeViewFactor m this groupIndex).2.extensibleGroups this
        = m.extensibleGroups this := by
  have hres : removeViewFactor m this groupIndex = (false, m) := by
    unfold removeViewFactor
    simp [Nat.not_lt.mpr h]
  rw [hres]
  exact ⟨rfl, rfl⟩

theorem removeViewFactor_out_of_range_witness :
    removeViewFactor exampleModelThreeGroups 5 3 = (false, exampleModelThreeGroups)
    ∧ removeViewFactor exampleModel 5 0 = (false, exampleModel) :=
  ⟨(removeViewFactor_out_of_range exampleModelThreeGroups 5 3 (by decide)).1,
   (removeViewFactor_out_of_range exampleModel 5 0 (by decide)).1⟩

/-- C10: after `removeAllViewFactors()`, whatever the relation stored,
`numberofViewFactors()` is 0 and `viewFactors()` returns the empty sequence; the call is
a total function of the store and has no failing outcome. -/
theorem removeAllViewFactors_clears (m : Model) (this : Handle) :
    (removeAllViewFactors m this).extensibleGroups this = []
    ∧ numberofViewFactors (removeAllViewFactors m this) this = 0
    ∧ viewFactors (removeAllViewFactors m this) this = .ok [] := by
  have hgroups : (removeAllViewFactors m this).extensibleGroups this = [] :=
    Model.extensibleGroups_update m this (fun _ => []) rfl
  refine ⟨hgroups, ?_, ?_⟩
  · unfold numberofViewFactors Model.numExtensibleGroups
    rw [hgroups]
    rfl
  · unfold viewFactors
    rw [hgroups]
    rfl

/-! ## addViewFactors -/

theorem addViewFactorsLoop_of_isRelation (s : Settings) (m : Model) (this : Handle)
    (hrel : isRelation m this) (viewFactors : List ViewFactor) (result : Bool) :
    addViewFactorsLoop s this viewFactors result m
      = match viewFactors with
        | [] => (.ok result, m)
        | _ :: _ => if s.assertAborts then (.error .assertionFailed, m) else (.ok false, m) := by
  induction viewFactors generalizing result with
  | nil => rfl
  | cons viewFactor rest ih =>
    unfold addViewFactorsLoop
    rw [addViewFactor_of_isRelation s m this viewFactor hrel]
    simp only [Bool.not_false, if_true]
    by_cases ha : s.assertAborts = true
    · simp [ha]
    · simp only [ha, if_false]
      rw [ih false]
      cases rest <;> simp [ha]

/-- C11, the code at a failing input: relation 5 of `exampleModelTwoZones` belongs to
zone 1; in `exampleBatch` the first and third view factors have both endpoints in zone 1
and the second leaves it. `addViewFactors` appends nothing: the store is unchanged, the
flag is false when a failed assertion returns, and the call ends at the first element
when a failed assertion aborts. -/
theorem addViewFactors_appends_nothing :
    isRelation exampleModelTwoZones 5
    ∧ (thermalZone exampleModelTwoZones 5).map (fun zone => zone.handle) = .ok 1
    ∧ exampleBatch.map (fun e => (enclosingZone exampleModelTwoZones e.fromSurface,
          enclosingZone exampleModelTwoZones e.toSurface))
        = [(some 1, some 1), (some 1, some 6), (some 1, some 1)]
    ∧ (∀ acceptsReal, addViewFactors ⟨false, acceptsReal⟩ exampleModelTwoZones 5 exampleBatch
        = (.ok false, exampleModelTwoZones))
    ∧ (∀ acceptsReal, addViewFactors ⟨true, acceptsReal⟩ exampleModelTwoZones 5 exampleBatch
        = (.error .assertionFailed, exampleModelTwoZones))
    ∧ exampleModelTwoZones.extensibleGroups 5 = []
    ∧ viewFactors exampleModelTwoZones 5 = .ok [] := by
  have hrel : isRelation exampleModelTwoZones 5 := by decide
  refine ⟨hrel, by decide, by decide, fun a => ?_, fun a => ?_, by decide, by decide⟩
  · unfold addViewFactors
    rw [addViewFactorsLoop_of_isRelation _ _ _ hrel]
    rfl
  · unfold addViewFactors
    rw [addViewFactorsLoop_of_isRelation _ _ _ hrel]
    rfl

theorem addViewFactorWith_ok_of_not_assertAborts (s : Settings) (check : ModelObject → Bool)
    (m : Model) (this : Handle) (viewFactor : ViewFactor) (h : s.assertAborts = false) :
    ∃ b, (addViewFactorWith s check m this viewFactor).1 = .ok b := by
  unfold addViewFactorWith
  simp only [h, Bool.and_false]
  split
  · exact ⟨false, rfl⟩
  · split
    · exact ⟨false, rfl⟩
    · simp only [Bool.false_eq_true, if_false]
      split
      · exact ⟨true, rfl⟩
      · exact ⟨false, rfl⟩

theorem addViewFactorsLoop_eq_individualCalls (s : Settings) (this : Handle)
    (h : s.assertAborts = false) (viewFactors : List ViewFactor) (result : Bool) (m : Model) :
    addViewFactorsLoop s this viewFactors result m
      = (.ok (result && (individualCalls s this viewFactors m).1.all
            (fun r => decide (r = .ok true))),
         (individualCalls s this viewFactors m).2) := by
  induction viewFactors generalizing result m with
  | nil => simp [addViewFactorsLoop, individualCalls]
  | cons viewFactor rest ih =>
    obtain ⟨b, hb⟩ := addViewFactorWith_ok_of_not_assertAborts s
      (checkIfInThermalZone m this) m this viewFactor h
    unfold addViewFactorsLoop individualCalls
    have hadd : addViewFactor s m this viewFactor
        = (.ok b, (addViewFactor s m this viewFactor).2) := by
      rw [← hb]; rfl
    rw [hadd]
    simp only [h]
    cases b with
    | true =>
      simp only [Bool.not_true, Bool.false_eq_true, if_false]
      rw [ih]
      simp
    | false =>
      simp only [Bool.not_false, if_true, Bool.false_eq_true, if_false]
      rw [ih]
      simp

/-- C12: when a failed assertion returns, `addViewFactors` returns a flag that is true
exactly when every individual `addViewFactor` call on the elements, made in order,
returned true, and false as soon as one of them failed; for the empty list it returns
true and leaves the store as it was. -/
theorem addViewFactors_flag (s : Settings) (m : Model) (this : Handle)
    (viewFactors : List ViewFactor) (h : s.assertAborts = false) :
    (∃ b, addViewFactors s m this viewFactors = (.ok b, (individualCalls s this viewFactors m).2)
      ∧ (b = true ↔ ∀ r ∈ (individualCalls s this viewFactors m).1, r = .ok true)
      ∧ (b = false ↔ ∃ r ∈ (individualCalls s this viewFactors m).1, r ≠ .ok true))
    ∧ addViewFactors s m this [] = (.ok true, m) := by
  refine ⟨⟨(individualCalls s this viewFactors m).1.all (fun r => decide (r = .ok true)),
    ?_, ?_, ?_⟩, rfl⟩
  · unfold addViewFactors
    rw [addViewFactorsLoop_eq_individualCalls s this h]
    simp
  · simp
  · simp

theorem addViewFactors_flag_witness :
    (∃ b, addViewFactors ⟨false, fun _ => true⟩ exampleModelTwoZones 5 exampleBatch
        = (.ok b, (individualCalls ⟨false, fun _ => true⟩ 5 exampleBatch
            exampleModelTwoZones).2)
      ∧ (b = true ↔ ∀ r ∈ (individualCalls ⟨false, fun _ => true⟩ 5 exampleBatch
            exampleModelTwoZones).1, r = .ok true)
      ∧ (b = false ↔ ∃ r ∈ (individualCalls ⟨false, fun _ => true⟩ 5 exampleBatch
            exampleModelTwoZones).1, r ≠ .ok true))
    ∧ (individualCalls ⟨false, fun _ => true⟩ 5 exampleBatch exampleModelTwoZones).1
        = [.ok false, .ok false, .ok false] :=
  ⟨(addViewFactors_flag ⟨false, fun _ => true⟩ exampleModelTwoZones 5 exampleBatch rfl).1,
   by decide⟩

end ZonePropertyUserViewFactorsBySurfaceName

/-! ## Reading the view factors back -/

theorem ModelExtensibleGroup.readViewFactor_eq_none {m : Model} {g : ModelExtensibleGroup}
    (h : g.retrievable m = false) : g.readViewFactor m = none := by
  unfold ModelExtensibleGroup.retrievable at h
  unfold ModelExtensibleGroup.readViewFactor
  cases hf : m.getTarget g.fromSurfaceName <;> cases ht : m.getTarget g.toSurfaceName
    <;> cases hv : g.viewFactor <;> simp_all

theorem ModelExtensibleGroup.readViewFactor_eq_some {m : Model} {g : ModelExtensibleGroup}
    {vf : ViewFactor} (h : g.readViewFactor m = some vf) :
    (m.getTarget g.fromSurfaceName).map (fun o => o.toModelObject) = some vf.fromSurface
    ∧ (m.getTarget g.toSurfaceName).map (fun o => o.toModelObject) = some vf.toSurface
    ∧ g.viewFactor = some vf.viewFactor := by
  unfold ModelExtensibleGroup.readViewFactor at h
  cases hf : m.getTarget g.fromSurfaceName <;> cases ht : m.getTarget g.toSurfaceName
    <;> cases hv : g.viewFactor <;> simp_all
  subst h
  exact ⟨rfl, rfl, rfl⟩

namespace ZonePropertyUserViewFactorsBySurfaceName

theorem viewFactorsLoop_cons (m : Model) (g : ModelExtensibleGroup)
    (rest : List ModelExtensibleGroup) (result : List ViewFactor) :
    viewFactorsLoop m (g :: rest) result
      = match g.readViewFactor m with
        | none => .ok []
        | some vf =>
          match ViewFactor.new vf.fromSurface vf.toSurface vf.viewFactor with
          | .error e => .error e
          | .ok viewFactor => viewFactorsLoop m rest (result ++ [viewFactor]) := by
  conv_lhs => rw [viewFactorsLoop]
  unfold ModelExtensibleGroup.readViewFactor
  cases hf : m.getTarget g.fromSurfaceName <;> cases ht : m.getTarget g.toSurfaceName
    <;> cases hv : g.viewFactor <;> rfl

theorem viewFactorsLoop_unretrievable (m : Model) (groups : List ModelExtensibleGroup)
    (result : List ViewFactor) (h : ∃ g ∈ groups, g.retrievable m = false) :
    (∀ l, viewFactorsLoop m groups result = .ok l → l = [])
    ∧ ((∀ g ∈ groups, g.accepted m = true) → viewFactorsLoop m groups result = .ok []) := by
  induction groups generalizing result with
  | nil => simp at h
  | cons g rest ih =>
    rw [viewFactorsLoop_cons]
    cases hread : g.readViewFactor m with
    | none =>
      refine ⟨fun l hl => ?_, fun _ => rfl⟩
      simp only [Except.ok.injEq] at hl
      exact hl.symm
    | some vf =>
      have hrest : ∃ g2 ∈ rest, g2.retrievable m = false := by
        obtain ⟨g2, hmem, hbad⟩ := h
        rcases List.mem_cons.mp hmem with heq | hmem2
        · subst heq
          rw [ModelExtensibleGroup.readViewFactor_eq_none hbad] at hread
          cases hread
        · exact ⟨g2, hmem2, hbad⟩
      simp only
      cases hnew : ViewFactor.new vf.fromSurface vf.toSurface vf.viewFactor with
      | error e =>
        refine ⟨fun l hl => ?_, fun hacc => ?_⟩
        · simp at hl
        · have := hacc g (List.mem_cons_self _ _)
          unfold ModelExtensibleGroup.accepted at this
          simp [hread, hnew] at this
      | ok viewFactor =>
        simp only
        have := ih (result ++ [viewFactor]) hrest
        exact ⟨this.1, fun hacc => this.2 (fun g2 hg2 => hacc g2 (List.mem_cons_of_mem _ hg2))⟩

/-- C13, as the claim states it, fails: relation 5 of `exampleModelWeightTwoThenUnset`
stores a group whose from-reference cannot be retrieved, yet `viewFactors()` does not
return the empty sequence; the constructor throws on the group before it, whose weight
is 2. -/
theorem viewFactors_throws_before_unretrievable_group :
    (⟨none, some 3, some (.finite (mkRat 1 2))⟩ : ModelExtensibleGroup)
        ∈ exampleModelWeightTwoThenUnset.extensibleGroups 5
    ∧ ModelExtensibleGroup.retrievable exampleModelWeightTwoThenUnset
        ⟨none, some 3, some (.finite (mkRat 1 2))⟩ = false
    ∧ viewFactors exampleModelWeightTwoThenUnset 5 = .error .viewFactorMoreThanOne
    ∧ viewFactors exampleModelWeightTwoThenUnset 5 ≠ .ok [] := by
  decide

/-- C13, amended: when at least one stored group has a from-reference, a to-reference or
a weight that cannot be retrieved, `viewFactors()` never returns a non-empty sequence,
however many earlier groups resolved; it returns the empty sequence provided the
`ViewFactor` constructor accepts every group that can be retrieved (otherwise the
constructor may throw on a group visited earlier). -/
theorem viewFactors_unretrievable_group (m : Model) (this : Handle)
    (g : ModelExtensibleGroup) (hg : g ∈ m.extensibleGroups this)
    (hbad : g.retrievable m = false) :
    (∀ l, viewFactors m this = .ok l → l = [])
    ∧ ((∀ g2 ∈ m.extensibleGroups this, g2.accepted m = true) →
        viewFactors m this = .ok []) :=
  viewFactorsLoop_unretrievable m (m.extensibleGroups this) [] ⟨g, hg, hbad⟩

theorem viewFactors_unretrievable_group_witness :
    viewFactors exampleModelUnsetReference 5 = .ok [] :=
  (viewFactors_unretrievable_group exampleModelUnsetReference 5
    ⟨some 4, none, some (.finite (mkRat 1 4))⟩ (by decide) (by decide)).2 (by decide)

theorem viewFactorsLoop_of_resolvesToPermitted (m : Model)
    (groups : List ModelExtensibleGroup) (result : List ViewFactor)
    (h : ∀ g ∈ groups, g.resolvesToPermitted m = true) :
    ∃ l, viewFactorsLoop m groups result = .ok (result ++ l)
      ∧ l.map some = groups.map (fun g => g.readViewFactor m) := by
  induction groups generalizing result with
  | nil => exact ⟨[], by simp [viewFactorsLoop], rfl⟩
  | cons g rest ih =>
    have hg := h g (List.mem_cons_self _ _)
    unfold ModelExtensibleGroup.resolvesToPermitted at hg
    rw [viewFactorsLoop_cons]
    cases hread : g.readViewFactor m with
    | none => simp [hread] at hg
    | some vf =>
      simp only [hread, Bool.and_eq_true, decide_eq_true_eq] at hg
      have hnew : ViewFactor.new vf.fromSurface vf.toSurface vf.viewFactor = .ok vf :=
        ViewFactor.new_ok_of_not_gt_one _ _ _ (Double.not_gt_one_of_le_one _ hg.2)
          hg.1.1 hg.1.2
      simp only [hnew]
      obtain ⟨l, hl, hmap⟩ := ih (result ++ [vf])
        (fun g2 hg2 => h g2 (List.mem_cons_of_mem _ hg2))
      refine ⟨vf :: l, ?_, ?_⟩
      · rw [hl]; simp
      · simp [hmap, hread]

/-- C14: when every stored group resolves to permitted endpoints with a weight of at most
1, `viewFactors()` returns as many view factors as `numberofViewFactors()` counts, and
its element at each index has as `fromSurface()` the target of that group's
`FromSurfaceName` field, as `toSurface()` the target of its `ToSurfaceName` field and as
`viewFactor()` its `ViewFactor` field. -/
theorem viewFactors_of_resolvesToPermitted (m : Model) (this : Handle)
    (h : ∀ g ∈ m.extensibleGroups this, g.resolvesToPermitted m = true) :
    ∃ l, viewFactors m this = .ok l
      ∧ l.length = numberofViewFactors m this
      ∧ ∀ (i : Nat) (g : ModelExtensibleGroup), (m.extensibleGroups this)[i]? = some g →
          ∃ vf : ViewFactor, l[i]? = some vf
            ∧ (m.getTarget g.fromSurfaceName).map (fun o => o.toModelObject)
                = some vf.fromSurface
            ∧ (m.getTarget g.toSurfaceName).map (fun o => o.toModelObject)
                = some vf.toSurface
            ∧ g.viewFactor = some vf.viewFactor := by
  obtain ⟨l, hl, hmap⟩ := viewFactorsLoop_of_resolvesToPermitted m
    (m.extensibleGroups this) [] h
  refine ⟨l, by simpa [viewFactors] using hl, ?_, ?_⟩
  · have := congrArg List.length hmap
    simpa [numberofViewFactors, Model.numExtensibleGroups] using this
  · intro i g hi
    have h1 : (l.map some)[i]? = some (g.readViewFactor m) := by
      rw [hmap, List.getElem?_map, hi]
      rfl
    rw [List.getElem?_map] at h1
    cases hli : l[i]? with
    | none => simp [hli] at h1
    | some vf =>
      simp only [hli, Option.map_some', Option.some.injEq] at h1
      exact ⟨vf, rfl, ModelExtensibleGroup.readViewFactor_eq_some h1.symm⟩

theorem viewFactors_of_resolvesToPermitted_witness :
    (∃ l, viewFactors exampleModelThreeGroups 5 = .ok l
      ∧ l.length = numberofViewFactors exampleModelThreeGroups 5
      ∧ ∀ (i : Nat) (g : ModelExtensibleGroup), (exampleModelThreeGroups.extensibleGroups 5)[i]? = some g →
          ∃ vf : ViewFactor, l[i]? = some vf
            ∧ (exampleModelThreeGroups.getTarget g.fromSurfaceName).map
                (fun o => o.toModelObject) = some vf.fromSurface
            ∧ (exampleModelThreeGroups.getTarget g.toSurfaceName).map
                (fun o => o.toModelObject) = some vf.toSurface
            ∧ g.viewFactor = some vf.viewFactor)
    ∧ viewFactors exampleModelThreeGroups 5
        = .ok [⟨⟨3, .OS_Surface⟩, ⟨4, .OS_SubSurface⟩, .finite (mkRat 1 2)⟩,
               ⟨⟨4, .OS_SubSurface⟩, ⟨3, .OS_Surface⟩, .finite (mkRat 1 4)⟩,
               ⟨⟨3, .OS_Surface⟩, ⟨3, .OS_Surface⟩, .finite 0⟩] :=
  ⟨viewFactors_of_resolvesToPermitted exampleModelThreeGroups 5 (by decide), by decide⟩

end ZonePropertyUserViewFactorsBySurfaceName

/-! ## Clone, and the check of addViewFactor -/

namespace ZonePropertyUserViewFactorsBySurfaceName

/-- C15: for every relation and every target model, `clone` throws and returns no model
object; the store is left as it was, so no relation is created. -/
theorem clone_always_throws (m : Model) (this : Handle) (model : Model) :
    (clone m this model).1 = .error .cloneNotAllowed
    ∧ (∀ o : ModelObject, (clone m this model).1 ≠ .ok o)
    ∧ (clone m this model).2 = m
    ∧ ∀ zone, relationsOf (clone m this model).2 zone = relationsOf m zone := by
  refine ⟨rfl, fun o h => ?_, rfl, fun _ => rfl⟩
  simp [clone] at h

/-- C18: on a relation record (a handle stands for one record of the store, so the
relation and a thermal zone never share a handle) the membership check of
`addViewFactor`, which compares the endpoint's zone handle with the handle of the
relation itself, passes for no object; `addViewFactor` returns false for every view
factor and leaves the stored sequence as it was. -/
theorem addViewFactor_check_never_passes (s : Settings) (m : Model) (this : Handle)
    (hrel : isRelation m this) :
    (∀ modelObject, checkIfInThermalZone m this modelObject = false)
    ∧ ∀ viewFactor,
        addViewFactor s m this viewFactor = (.ok false, m)
        ∧ (addViewFactor s m this viewFactor).2.extensibleGroups this
            = m.extensibleGroups this := by
  refine ⟨fun o => checkIfInThermalZone_of_isRelation m this o hrel, fun viewFactor => ?_⟩
  have h := addViewFactor_of_isRelation s m this viewFactor hrel
  rw [h]
  exact ⟨rfl, rfl⟩

theorem addViewFactor_check_never_passes_witness :
    checkIfInThermalZone exampleModelTwoZones 5 exampleViewFactorBack.fromSurface = false
    ∧ checkIfInThermalZone exampleModelTwoZones 1 exampleViewFactorBack.fromSurface = true
    ∧ addViewFactor ⟨true, fun _ => true⟩ exampleModelTwoZones 5 exampleViewFactorBack
        = (.ok false, exampleModelTwoZones) :=
  have h := addViewFactor_check_never_passes ⟨true, fun _ => true⟩ exampleModelTwoZones 5
    (by decide)
  ⟨h.1 _, by decide, (h.2 exampleViewFactorBack).1⟩

end ZonePropertyUserViewFactorsBySurfaceName

/-! ## What a construction leaves in the store -/

theorem Model.objects_map_of_getObject_none {m : Model} {h : Handle}
    (hfresh : m.getObject h = none) (f : WorkspaceObject → WorkspaceObject) :
    m.objects.map (fun o => if o.handle = h then f o else o) = m.objects := by
  have hold : ∀ o ∈ m.objects, ¬ o.handle = h := by
    intro o ho heq
    have := List.find?_eq_none.mp hfresh o ho
    simp [heq] at this
  conv => rhs; rw [← List.map_id m.objects]
  apply List.map_congr_left
  intro o ho
  simp [hold o ho]

theorem Model.objects_filter_of_getObject_none {m : Model} {h : Handle}
    (hfresh : m.getObject h = none) :
    m.objects.filter (fun o => o.handle != h) = m.objects := by
  rw [List.filter_eq_self]
  intro o ho
  have := List.find?_eq_none.mp hfresh o ho
  simpa using this

theorem Model.getObject_append_left {l1 l2 : List WorkspaceObject} {h : Handle}
    {o : WorkspaceObject} (hget : (⟨l1⟩ : Model).getObject h = some o) :
    (⟨l1 ++ l2⟩ : Model).getObject h = some o := by
  unfold Model.getObject at hget ⊢
  simp [List.find?_append, hget]

theorem Model.getObject_append_right {l1 l2 : List WorkspaceObject} {h : Handle}
    (hget : (⟨l1⟩ : Model).getObject h = none) :
    (⟨l1 ++ l2⟩ : Model).getObject h = (⟨l2⟩ : Model).getObject h := by
  unfold Model.getObject at hget ⊢
  simp [List.find?_append, hget]

theorem WorkspaceObject.nullifyPointer_of_not_pointsTo (o : WorkspaceObject) (h : Handle)
    (hp : o.pointsTo h = false) : o.nullifyPointer h = o := by
  unfold WorkspaceObject.pointsTo at hp
  simp only [Bool.decide_or, Bool.or_eq_false_iff, decide_eq_false_iff_not,
    List.any_eq_false, Bool.decide_eq_true, not_or] at hp
  obtain ⟨h1, h2, h3, h4⟩ := hp
  unfold WorkspaceObject.nullifyPointer
  have hgroups : o.extensibleGroups.map (fun g =>
      ({ g with fromSurfaceName := if g.fromSurfaceName = some h then none
                                     else g.fromSurfaceName
                toSurfaceName := if g.toSurfaceName = some h then none
                                   else g.toSurfaceName } : ModelExtensibleGroup))
      = o.extensibleGroups := by
    conv => rhs; rw [← List.map_id o.extensibleGroups]
    apply List.map_congr_left
    intro g hg
    have := h4 g hg
    simp only [Bool.or_eq_true, decide_eq_true_eq, not_or] at this
    simp [this.1, this.2]
  simp only [h1, h2, h3, if_false, hgroups]


namespace ZonePropertyUserViewFactorsBySurfaceName

theorem new_of_no_source (s : Settings) (m : Model) (newHandle : Handle)
    (zone : WorkspaceObject) (hzone : m.getObject zone.handle = some zone)
    (hfresh : m.getObject newHandle = none)
    (hnone : m.getModelObjectSources zone.handle iddObjectType = []) :
    new s m newHandle zone.handle
      = (.ok newHandle,
         ⟨m.objects ++ [⟨newHandle, iddObjectType, none, none, some zone.handle, []⟩]⟩) := by
  have hsrc : (m.addObject newHandle iddObjectType).getModelObjectSources zone.handle
      iddObjectType = [] := by
    unfold Model.getModelObjectSources at hnone ⊢
    unfold Model.addObject
    simp only [List.filter_append, hnone, List.nil_append]
    simp [WorkspaceObject.fresh, WorkspaceObject.pointsTo]
  have hget : ((m.addObject newHandle iddObjectType).getObject zone.handle).isSome = true := by
    unfold Model.addObject
    rw [Model.getObject_append_left hzone]
    rfl
  unfold new
  simp only [hsrc, List.isEmpty_nil, Bool.not_true, Bool.false_eq_true, if_false]
  unfold Model.setThermalZoneName
  simp only [hget, if_true, Bool.not_true, Bool.false_and, Bool.false_eq_true, if_false]
  unfold Model.update Model.addObject
  simp only [List.map_append, Model.objects_map_of_getObject_none hfresh, List.map_cons,
    List.map_nil, WorkspaceObject.fresh, if_true]

/-- C17: for a thermal zone Z of the model to which no relation refers yet, constructing
a relation for Z succeeds, `thermalZone()` on the new relation returns Z (its assertion
does not fail), and Z then reports that relation, and no other, as its source. -/
theorem new_succeeds_for_zone_without_relation (s : Settings) (m : Model)
    (newHandle : Handle) (zone : WorkspaceObject)
    (hzone : m.getObject zone.handle = some zone)
    (htype : zone.iddObjectType = .OS_ThermalZone)
    (hfresh : m.getObject newHandle = none)
    (hnone : m.getModelObjectSources zone.handle iddObjectType = []) :
    (new s m newHandle zone.handle).1 = .ok newHandle
    ∧ isRelation (new s m newHandle zone.handle).2 newHandle
    ∧ thermalZone (new s m newHandle zone.handle).2 newHandle = .ok zone
    ∧ ((new s m newHandle zone.handle).2.getModelObjectSources zone.handle
          iddObjectType).map (fun o => o.handle) = [newHandle]
    ∧ (relationsOf (new s m newHandle zone.handle).2 zone.handle).map (fun o => o.handle)
        = [newHandle] := by
  rw [new_of_no_source s m newHandle zone hzone hfresh hnone]
  have hnew : (⟨m.objects ++ [⟨newHandle, iddObjectType, none, none, some zone.handle, []⟩]⟩
      : Model).getObject newHandle
      = some ⟨newHandle, iddObjectType, none, none, some zone.handle, []⟩ := by
    rw [Model.getObject_append_right hfresh]
    simp [Model.getObject]
  have hz : (⟨m.objects ++ [⟨newHandle, iddObjectType, none, none, some zone.handle, []⟩]⟩
      : Model).getObject zone.handle = some zone :=
    Model.getObject_append_left hzone
  have hrels : relationsOf m zone.handle = [] := by
    unfold relationsOf
    unfold Model.getModelObjectSources at hnone
    rw [List.filter_eq_nil_iff] at hnone ⊢
    intro o ho hp
    simp only [Bool.and_eq_true, decide_eq_true_eq] at hp
    apply hnone o ho
    simp [hp.1, WorkspaceObject.pointsTo, hp.2]
  refine ⟨rfl, ?_, ?_, ?_, ?_⟩
  · unfold isRelation
    simp only [hnew, Option.map_some']
  · unfold thermalZone
    simp only [hnew, Model.getModelObjectTarget, Model.getTarget, hz, htype, if_true]
  · unfold Model.getModelObjectSources at hnone ⊢
    simp only [List.filter_append, hnone, List.nil_append]
    simp [WorkspaceObject.pointsTo]
  · unfold relationsOf at hrels ⊢
    simp only [List.filter_append, hrels, List.nil_append]
    simp

theorem new_succeeds_for_zone_without_relation_witness :
    (new ⟨true, fun _ => true⟩ exampleModelNoRelation 5 1).1 = .ok 5
    ∧ thermalZone (new ⟨true, fun _ => true⟩ exampleModelNoRelation 5 1).2 5
        = .ok ⟨1, .OS_ThermalZone, none, none, none, []⟩
    ∧ (new ⟨true, fun _ => true⟩ exampleModelNoRelation 5 1).2 = exampleModel :=
  have h := new_succeeds_for_zone_without_relation ⟨true, fun _ => true⟩
    exampleModelNoRelation 5 ⟨1, .OS_ThermalZone, none, none, none, []⟩
    (by decide) (by decide) (by decide) (by decide)
  ⟨h.1, h.2.2.1, by decide⟩

theorem sources_ne_nil_of_relation {m : Model} {this : Handle} {zone : WorkspaceObject}
    (newHandle : Handle) (hrel : isRelation m this) (hzone : thermalZone m this = .ok zone) :
    ((m.addObject newHandle iddObjectType).getModelObjectSources zone.handle
      iddObjectType).isEmpty = false := by
  obtain ⟨r, hr, hrz, -, -⟩ := thermalZone_ok hzone
  have hrt : r.iddObjectType = iddObjectType := by
    unfold isRelation at hrel
    simpa [hr] using hrel
  have hmem : r ∈ (m.addObject newHandle iddObjectType).getModelObjectSources
      zone.handle iddObjectType := by
    unfold Model.getModelObjectSources Model.addObject
    simp only [List.mem_filter, List.mem_append]
    refine ⟨Or.inl (Model.getObject_mem hr), ?_⟩
    simp [hrt, WorkspaceObject.pointsTo, hrz]
  cases hl : (m.addObject newHandle iddObjectType).getModelObjectSources
    zone.handle iddObjectType with
  | nil => rw [hl] at hmem; simp at hmem
  | cons a l => rfl

/-- C20: when the construction of a relation for zone Z fails because Z already has one,
and the handle given to the new record is new to the store, the record created for the
new relation is removed before the error is raised: the store after the failed
construction is the store before it, so it holds the same relations, and the existing
relation and its groups are unchanged. -/
theorem new_failure_restores_model (s : Settings) (m : Model) (this newHandle : Handle)
    (zone : WorkspaceObject) (hrel : isRelation m this)
    (hzone : thermalZone m this = .ok zone) (hfresh : m.isFresh newHandle) :
    new s m newHandle zone.handle = (.error .zoneAlreadyHasRelation, m)
    ∧ (new s m newHandle zone.handle).2.getObject newHandle = none
    ∧ (new s m newHandle zone.handle).2.objects.filter
          (fun o => decide (o.iddObjectType = iddObjectType))
        = m.objects.filter (fun o => decide (o.iddObjectType = iddObjectType))
    ∧ (new s m newHandle zone.handle).2.getObject this = m.getObject this
    ∧ (new s m newHandle zone.handle).2.extensibleGroups this = m.extensibleGroups this
    ∧ viewFactors (new s m newHandle zone.handle).2 this = viewFactors m this := by
  have hres : new s m newHandle zone.handle = (.error .zoneAlreadyHasRelation, m) := by
    unfold new
    simp only [sources_ne_nil_of_relation newHandle hrel hzone, Bool.not_false, if_true]
    congr 1
    unfold Model.remove Model.addObject
    simp only [List.filter_append, Model.objects_filter_of_getObject_none hfresh.1]
    have hmap : m.objects.map (fun o => o.nullifyPointer newHandle) = m.objects := by
      conv => rhs; rw [← List.map_id m.objects]
      apply List.map_congr_left
      intro o ho
      simp [WorkspaceObject.nullifyPointer_of_not_pointsTo o newHandle (hfresh.2 o ho)]
    simp [WorkspaceObject.fresh, hmap]
  rw [hres]
  exact ⟨rfl, hfresh.1, rfl, rfl, rfl, rfl⟩

theorem new_failure_restores_model_witness :
    new ⟨true, fun _ => true⟩ exampleModelThreeGroups 9 1
      = (.error .zoneAlreadyHasRelation, exampleModelThreeGroups) :=
  (new_failure_restores_model ⟨true, fun _ => true⟩ exampleModelThreeGroups 5 9
    ⟨1, .OS_ThermalZone, none, none, none, []⟩ (by decide) (by decide) (by decide)).1

end ZonePropertyUserViewFactorsBySurfaceName

/-! ## The group addViewFactor stores -/

theorem modifyGroup_length_append (f : ModelExtensibleGroup → ModelExtensibleGroup)
    (l : List ModelExtensibleGroup) (x : ModelExtensibleGroup) :
    modifyGroup f l.length (l ++ [x]) = l ++ [f x] := by
  induction l with
  | nil => rfl
  | cons a l ih => simp [modifyGroup, ih]

theorem Model.getObject_update_any (m : Model) (this h : Handle)
    (f : WorkspaceObject → WorkspaceObject) (hf : ∀ o, (f o).handle = o.handle) :
    (m.update this f).getObject h
      = (m.getObject h).map (fun o => if o.handle = this then f o else o) := by
  unfold Model.getObject Model.update
  simp only [List.find?_map]
  congr 2
  funext o
  simp only [Function.comp]
  split <;> simp [hf]

theorem Model.toModelObject_update (m : Model) (this h : Handle)
    (f : WorkspaceObject → WorkspaceObject)
    (hf : ∀ o, (f o).handle = o.handle ∧ (f o).iddObjectType = o.iddObjectType) :
    ((m.update this f).getObject h).map (fun o => o.toModelObject)
      = (m.getObject h).map (fun o => o.toModelObject) := by
  rw [Model.getObject_update_any m this h f (fun o => (hf o).1)]
  cases m.getObject h with
  | none => rfl
  | some o =>
    simp only [Option.map_some', Option.some.injEq]
    split
    · simp [WorkspaceObject.toModelObject, hf]
    · rfl


theorem Model.isSome_getObject_update (m : Model) (this h : Handle)
    (f : WorkspaceObject → WorkspaceObject)
    (hf : ∀ o, (f o).handle = o.handle ∧ (f o).iddObjectType = o.iddObjectType) :
    ((m.update this f).getObject h).isSome = (m.getObject h).isSome := by
  have := congrArg Option.isSome (Model.toModelObject_update m this h f hf)
  simpa using this

theorem Model.isSome_getObject_pushExtensibleGroup (m : Model) (this h : Handle) :
    ((m.pushExtensibleGroup this).2.getObject h).isSome = (m.getObject h).isSome :=
  Model.isSome_getObject_update m this h _ (fun _ => ⟨rfl, rfl⟩)

theorem Model.isSome_getObject_modifyGroupAt (m : Model) (this h : Handle) (groupIndex : Nat)
    (g : ModelExtensibleGroup → ModelExtensibleGroup) :
    ((m.update this (fun o => o.modifyGroupAt groupIndex g)).getObject h).isSome
      = (m.getObject h).isSome :=
  Model.isSome_getObject_update m this h _ (fun _ => ⟨rfl, rfl⟩)

theorem Model.toModelObject_pushExtensibleGroup (m : Model) (this h : Handle) :
    ((m.pushExtensibleGroup this).2.getObject h).map (fun o => o.toModelObject)
      = (m.getObject h).map (fun o => o.toModelObject) :=
  Model.toModelObject_update m this h _ (fun _ => ⟨rfl, rfl⟩)

theorem Model.toModelObject_modifyGroupAt (m : Model) (this h : Handle) (groupIndex : Nat)
    (g : ModelExtensibleGroup → ModelExtensibleGroup) :
    ((m.update this (fun o => o.modifyGroupAt groupIndex g)).getObject h).map
        (fun o => o.toModelObject)
      = (m.getObject h).map (fun o => o.toModelObject) :=
  Model.toModelObject_update m this h _ (fun _ => ⟨rfl, rfl⟩)

theorem Model.getObject_pushExtensibleGroup (m : Model) (this : Handle) :
    (m.pushExtensibleGroup this).2.getObject this
      = (m.getObject this).map (fun o => { o with
          extensibleGroups := o.extensibleGroups ++ [ModelExtensibleGroup.empty] }) :=
  Model.getObject_update m this _ (fun _ => rfl)

theorem Model.getObject_modifyGroupAt (m : Model) (this : Handle) (groupIndex : Nat)
    (g : ModelExtensibleGroup → ModelExtensibleGroup) :
    (m.update this (fun o => o.modifyGroupAt groupIndex g)).getObject this
      = (m.getObject this).map (fun o => o.modifyGroupAt groupIndex g) :=
  Model.getObject_update m this _ (fun _ => rfl)

theorem Model.setPointer_fromSurfaceName (m : Model) (this : Handle) (groupIndex : Nat)
    (target : Handle) (h : (m.getObject target).isSome = true) :
    m.setPointer this groupIndex .FromSurfaceName target
      = (true, m.update this (fun o =>
          o.modifyGroupAt groupIndex (fun g => { g with fromSurfaceName := some target }))) := by
  simp [Model.setPointer, h]

theorem Model.setDouble_viewFactor (s : Settings) (m : Model) (this : Handle)
    (groupIndex : Nat) (value : Double) (h : s.acceptsReal value = true) :
    m.setDouble s this groupIndex .ViewFactor value
      = (true, m.update this (fun o =>
          o.modifyGroupAt groupIndex (fun g => { g with viewFactor := some value }))) := by
  simp [Model.setDouble, h]

namespace ZonePropertyUserViewFactorsBySurfaceName

theorem addViewFactorWith_of_checks_pass (s : Settings) (check : ModelObject → Bool)
    (m : Model) (this : Handle) (viewFactor : ViewFactor) (r : WorkspaceObject)
    (hr : m.getObject this = some r)
    (hcf : check viewFactor.fromSurface = true) (hct : check viewFactor.toSurface = true)
    (hfrom : (m.getObject viewFactor.fromSurface.handle).isSome = true)
    (hto : (m.getObject viewFactor.toSurface.handle).isSome = true)
    (hreal : s.acceptsReal viewFactor.viewFactor = true) :
    (addViewFactorWith s check m this viewFactor).1 = .ok true
    ∧ (addViewFactorWith s check m this viewFactor).2.extensibleGroups this
        = r.extensibleGroups
          ++ [⟨some viewFactor.toSurface.handle, none, some viewFactor.viewFactor⟩]
    ∧ ∀ h, ((addViewFactorWith s check m this viewFactor).2.getObject h).map
          (fun o => o.toModelObject)
        = (m.getObject h).map (fun o => o.toModelObject) := by
  have hnum : (m.pushExtensibleGroup this).1 = r.extensibleGroups.length := by
    simp [Model.pushExtensibleGroup, Model.numExtensibleGroups, Model.extensibleGroups, hr]
  have h1 : ((m.pushExtensibleGroup this).2.getObject viewFactor.fromSurface.handle).isSome
      = true := by
    rw [Model.isSome_getObject_pushExtensibleGroup]
    exact hfrom
  have h2 : (((m.pushExtensibleGroup this).2.update this (fun o =>
      o.modifyGroupAt (m.pushExtensibleGroup this).1
        (fun g => { g with fromSurfaceName := some viewFactor.fromSurface.handle }))).getObject
      viewFactor.toSurface.handle).isSome = true := by
    rw [Model.isSome_getObject_modifyGroupAt, Model.isSome_getObject_pushExtensibleGroup]
    exact hto
  have hres : addViewFactorWith s check m this viewFactor
      = (.ok true,
         (((m.pushExtensibleGroup this).2.update this (fun o =>
            o.modifyGroupAt (m.pushExtensibleGroup this).1
              (fun g => { g with fromSurfaceName := some viewFactor.fromSurface.handle }))).update
            this (fun o => o.modifyGroupAt (m.pushExtensibleGroup this).1
              (fun g => { g with fromSurfaceName := some viewFactor.toSurface.handle }))).update
            this (fun o => o.modifyGroupAt (m.pushExtensibleGroup this).1
              (fun g => { g with viewFactor := some viewFactor.viewFactor }))) := by
    unfold addViewFactorWith
    simp only [hcf, hct, Bool.not_true, Bool.false_eq_true, if_false]
    rw [Model.setPointer_fromSurfaceName _ _ _ _ h1]
    simp only [Bool.not_true, Bool.false_and, Bool.false_eq_true, if_false]
    rw [Model.setPointer_fromSurfaceName _ _ _ _ h2]
    simp only [Bool.not_true, Bool.false_and, Bool.false_eq_true, if_false]
    rw [Model.setDouble_viewFactor _ _ _ _ _ hreal]
    simp only [Bool.and_self, if_true]
  rw [hres]
  refine ⟨rfl, ?_, ?_⟩
  · dsimp only
    unfold Model.extensibleGroups
    rw [Model.getObject_modifyGroupAt, Model.getObject_modifyGroupAt,
      Model.getObject_modifyGroupAt, Model.getObject_pushExtensibleGroup, hr]
    simp only [Option.map_some', WorkspaceObject.modifyGroupAt, hnum,
      modifyGroup_length_append]
    rfl
  · intro h
    simp only [Model.toModelObject_modifyGroupAt, Model.toModelObject_pushExtensibleGroup]

end ZonePropertyUserViewFactorsBySurfaceName

theorem ModelExtensibleGroup.readViewFactor_congr {m m2 : Model}
    (h : ∀ h, (m2.getObject h).map (fun o => o.toModelObject)
      = (m.getObject h).map (fun o => o.toModelObject))
    (g : ModelExtensibleGroup) : g.readViewFactor m2 = g.readViewFactor m := by
  have key : ∀ p : Option Handle, (m2.getTarget p).map (fun o => o.toModelObject)
      = (m.getTarget p).map (fun o => o.toModelObject) := by
    intro p
    cases p with
    | none => rfl
    | some a => exact h a
  have hf := key g.fromSurfaceName
  have ht := key g.toSurfaceName
  unfold ModelExtensibleGroup.readViewFactor
  cases h1 : m2.getTarget g.fromSurfaceName <;> cases h2 : m.getTarget g.fromSurfaceName
    <;> cases h3 : m2.getTarget g.toSurfaceName <;> cases h4 : m.getTarget g.toSurfaceName
    <;> cases h5 : g.viewFactor <;> simp_all

namespace ZonePropertyUserViewFactorsBySurfaceName

/-! ## The public removeViewFactor -/

theorem toUnsigned_of_neg (groupIndex : Int) (hneg : groupIndex < 0)
    (hlow : -(2 ^ 32) < groupIndex) :
    (toUnsigned groupIndex : Int) = 2 ^ 32 - |groupIndex| := by
  unfold toUnsigned
  have hmod : groupIndex % 2 ^ 32 = groupIndex + 2 ^ 32 := by
    omega
  rw [hmod, abs_of_neg hneg, Int.toNat_of_nonneg (by omega)]
  ring

/-- C21: for a negative `int` argument and a relation that holds fewer than
2^32 - |groupIndex| groups, the public `removeViewFactor(int)` removes nothing: the
argument becomes the unsigned index 2^32 - |groupIndex|, which is at or beyond the
count, so the implementation computes the flag false and leaves the stored sequence as it
was; the public method returns `void`, whatever flag the implementation computed. -/
theorem removeViewFactor_negative_int (m : Model) (this : Handle) (groupIndex : Int)
    (hneg : groupIndex < 0)
    (hcount : (numberofViewFactors m this : Int) < 2 ^ 32 - |groupIndex|) :
    (toUnsigned groupIndex : Int) = 2 ^ 32 - |groupIndex|
    ∧ numberofViewFactors m this ≤ toUnsigned groupIndex
    ∧ (removeViewFactor m this (toUnsigned groupIndex)).1 = false
    ∧ Public.removeViewFactor m this groupIndex = ((), m)
    ∧ (Public.removeViewFactor m this groupIndex).2.extensibleGroups this
        = m.extensibleGroups this
    ∧ ∀ (m2 : Model) (this2 : Handle) (anyIndex : Int),
        (Public.removeViewFactor m2 this2 anyIndex).1 = ()
        ∧ (Public.removeViewFactor m2 this2 anyIndex).2
            = (removeViewFactor m2 this2 (toUnsigned anyIndex)).2 := by
  have habs : |groupIndex| = -groupIndex := abs_of_neg hneg
  have hlow : -(2 ^ 32) < groupIndex := by
    have : (0 : Int) ≤ (numberofViewFactors m this : Int) := Int.ofNat_nonneg _
    omega
  have hidx := toUnsigned_of_neg groupIndex hneg hlow
  have hle : numberofViewFactors m this ≤ toUnsigned groupIndex := by
    have : (numberofViewFactors m this : Int) < (toUnsigned groupIndex : Int) := by
      rw [hidx]; exact hcount
    omega
  have himpl : removeViewFactor m this (toUnsigned groupIndex) = (false, m) := by
    unfold removeViewFactor
    simp [Nat.not_lt.mpr hle]
  refine ⟨hidx, hle, by rw [himpl], ?_, ?_, fun m2 this2 anyIndex => ⟨rfl, rfl⟩⟩
  · unfold Public.removeViewFactor
    rw [himpl]
  · unfold Public.removeViewFactor
    rw [himpl]

theorem removeViewFactor_negative_int_witness :
    toUnsigned (-1) = 4294967295
    ∧ Public.removeViewFactor exampleModelThreeGroups 5 (-1) = ((), exampleModelThreeGroups) :=
  ⟨by decide,
   (removeViewFactor_negative_int exampleModelThreeGroups 5 (-1) (by decide)
    (by decide)).2.2.2.1⟩

end ZonePropertyUserViewFactorsBySurfaceName

end OpenStudio
